import Mathlib

set_option maxRecDepth 8000

/-!
Verification development for the epydoc repository slice: the project
Makefile (and the older Makefile revisions), the GUI launcher script
src/scripts/epydoc.pyw, and the manual chapter on usage.

The Makefile recipes are embedded as data: each rule keeps its target,
its prerequisites and its recipe, and each shell command of a recipe is
embedded by its effect on a filesystem.  A filesystem maps a path (a
list of components) to the mtime of the entry stored there.  The build
decision procedure of make (rebuild when the target is missing, older
than a prerequisite, or a prerequisite was itself remade) is embedded as
a fuel-indexed evaluator.
-/

namespace Epydoc

/-- A filesystem path, as its list of components. -/
abbrev Path := List String

/-- A filesystem: each path is mapped to the mtime of the entry there,
or to none when no entry exists. -/
abbrev FS := Path → Option Nat

/-- Update the entry at path p to mtime t. -/
def FS.set (fs : FS) (p : Path) (t : Nat) : FS :=
  fun q => if q = p then some t else fs q

/-- A component name is hidden when it starts with a dot; the shell glob
star does not match hidden names. -/
def hiddenName (s : String) : Bool :=
  match s.data with
  | c :: _ => c == '.'
  | [] => false

/-- When p lies strictly below directory d, return the first component
of p below d together with the rest. -/
def childOf (d p : Path) : Option (String × Path) :=
  if d.isPrefixOf p then
    match p.drop d.length with
    | [] => none
    | c :: r => some (c, r)
  else none

/-- One shell command of a Makefile recipe, embedded by its effect on
the filesystem.  Paths are the ones written in the Makefile, with the
variables of the Makefile expanded.  Commands with no effect on the
local build tree (rsync to the remote host, echo, the unit tests, the
recursive make in src) are kept as external commands. -/
inductive Cmd where
  | touch (p : Path)
  | rmTree (p : Path)
  | rmChildren (p : Path)
  | mkdirp (p : Path)
  | copyTree (src dst : Path)
  | copyChildren (src dst : Path)
  | copyFile (src dst : Path)
  | gen (dir : Path) (args : List String)
  | genFile (p : Path) (args : List String)
  | doctestLoop (files : List Path) (outDir : Path)
  | external (desc : String)
deriving DecidableEq

/-- Effect of a command on the filesystem, at time t.  The epydoc
invocations (gen) write only below their output directory; their output
files are abstracted to the directory entry itself.  The recipes of the
Makefile only copy a tree onto a destination that was freshly removed,
so copyTree does not model the cp behaviour of descending into an
already existing destination directory. -/
def cmdFS (c : Cmd) (t : Nat) (fs : FS) : FS :=
  match c with
  | .touch p => fs.set p t
  | .rmTree p => fun q => if p.isPrefixOf q then none else fs q
  | .rmChildren p => fun q =>
      match childOf p q with
      | some (c0, _) => if hiddenName c0 then fs q else none
      | none => fs q
  | .mkdirp p => fs.set p t
  | .copyTree src dst => fun q =>
      if dst.isPrefixOf q && (fs (src ++ q.drop dst.length)).isSome then
        some t
      else fs q
  | .copyChildren src dst => fun q =>
      match childOf dst q with
      | some (c0, r) =>
          if !hiddenName c0 && (fs (src ++ c0 :: r)).isSome then some t
          else fs q
      | none => fs q
  | .copyFile src dst => if (fs src).isSome then fs.set dst t else fs
  | .gen dir _ => fs.set dir t
  | .genFile p _ => fs.set p t
  | .doctestLoop _ _ => fs
  | .external _ => fs

/-- The build state threaded through recipe execution: the filesystem,
a clock supplying fresh mtimes, the trace of the shell commands that
actually ran, and whether a command has failed (make stops a recipe at
the first failing command). -/
structure St where
  fs : FS
  clock : Nat
  trace : List String
  failed : Bool

/-- Render a path the way the shell sees it. -/
def showPath (p : Path) : String := String.intercalate "/" p

/-- Trace label of a command. -/
def cmdLabel (c : Cmd) : String :=
  match c with
  | .touch p => "touch " ++ showPath p
  | .rmTree p => "rm -rf " ++ showPath p
  | .rmChildren p => "rm -rf " ++ showPath p ++ "/*"
  | .mkdirp p => "mkdir -p " ++ showPath p
  | .copyTree s d => "cp -r " ++ showPath s ++ " " ++ showPath d
  | .copyChildren s d => "cp -r " ++ showPath s ++ "/* " ++ showPath d
  | .copyFile s d => "cp " ++ showPath s ++ " " ++ showPath d
  | .gen d _ => "epydoc -o " ++ showPath d
  | .genFile p _ => "generate " ++ showPath p
  | .doctestLoop _ _ => "for doctest loop"
  | .external s => s

/-- Output file of one rst2html conversion: the basename of the doctest
file with the suffix .doctest replaced by .html, below the output
directory (from the out_file assignment in the recipe). -/
def doctestOut (outDir : Path) (f : Path) : Path :=
  let base := match f.getLast? with | some s => s | none => ""
  let bd := base.data
  let stem :=
    if (".doctest".data).isSuffixOf bd then
      String.mk (bd.take (bd.length - 8))
    else base
  outDir ++ [stem ++ ".html"]

/-- Execution of the shell for loop of the .doctest-html.up2date recipe:
convert each doctest file in turn; a successful conversion writes its
html output file; at the first failing conversion the loop stops with
exit 1 (the failed flag).  The oracle ok tells which conversions
succeed. -/
def dtLoop (ok : Path → Bool) (outDir : Path) : List Path → St → St
  | [], st => st
  | f :: rest, st =>
    let st1 : St := { st with trace := st.trace ++ ["rst2html " ++ showPath f] }
    if ok f then
      dtLoop ok outDir rest
        { st1 with
            fs := st1.fs.set (doctestOut outDir f) st1.clock,
            clock := st1.clock + 1 }
    else { st1 with failed := true }

/-- Execute one command on the build state. -/
def execCmd (ok : Path → Bool) (c : Cmd) (st : St) : St :=
  match c with
  | .doctestLoop files outDir => dtLoop ok outDir files st
  | _ =>
    { fs := cmdFS c st.clock st.fs,
      clock := st.clock + 1,
      trace := st.trace ++ [cmdLabel c],
      failed := st.failed }

/-- Run a recipe: commands in order, stopping after a failure. -/
def runRecipe (ok : Path → Bool) (cmds : List Cmd) (st : St) : St :=
  cmds.foldl (fun s c => if s.failed then s else execCmd ok c s) st

/-- A Makefile rule: target, prerequisites, recipe, and whether the
target is declared .PHONY. -/
structure Rule where
  target : Path
  prereqs : List Path
  recipe : List Cmd
  phony : Bool := false
deriving DecidableEq

/-- The epydoc invocation of the .api-html.up2date recipe (options as
written in the Makefile; the shell-computed version string is kept as
the unexpanded variable). -/
def apiHtmlArgs : List String :=
  ["--name", "epydoc", "--css", "white",
   "--url", "http://epydoc.sourceforge.net", "--pstat", "profile.out",
   "--inheritance=listed", "--navlink", "epydoc $(VERSION)",
   "--docformat", "plaintext", "-v", "--graph", "all", "src/epydoc/"]

/-- The epydoc invocation of the profile.out recipe. -/
def profileArgs : List String :=
  ["--name", "epydoc", "--css", "white",
   "--url", "http://epydoc.sourceforge.net", "--profile-epydoc",
   "--inheritance=listed", "--navlink", "epydoc $(VERSION)",
   "--docformat", "plaintext", "-v", "--graph", "all", "src/epydoc/"]

/-- The local rule of src/Makefile: empty the local web root, then copy
the built webpage there (shell: rm -rf /var/www/epydoc/* followed by
cp -r webpage/* /var/www/epydoc). -/
def localRule : Rule :=
  { target := ["local"], prereqs := [[".webpage.up2date"]],
    recipe := [.rmChildren ["var", "www", "epydoc"],
               .copyChildren ["webpage"] ["var", "www", "epydoc"]],
    phony := true }

/-- The .webpage.up2date rule of src/Makefile: rebuild the webpage
directory from the docs, the API HTML tree, the examples tree, the
doctest HTML tree and the API PDF, then touch the sentinel. -/
def webpageRule (docs : List Path) : Rule :=
  { target := [".webpage.up2date"],
    prereqs := [[".api-html.up2date"], [".examples.up2date"],
                [".api-pdf.up2date"], [".doctest-html.up2date"],
                ["doc", "epydoc-man.html"], ["doc", "epydocgui-man.html"]]
               ++ docs,
    recipe := [.rmTree ["webpage"],
               .mkdirp ["webpage"],
               .copyChildren ["doc"] ["webpage"],
               .copyTree ["html", "api"] ["webpage", "api"],
               .copyTree ["html", "examples"] ["webpage", "examples"],
               .copyChildren ["html", "doctest"] ["webpage", "doctest"],
               .copyFile ["latex", "api", "api.pdf"]
                 ["webpage", "epydoc.pdf"],
               .touch [".webpage.up2date"]] }

/-- The .api-html.up2date rule of src/Makefile. -/
def apiHtmlRule (pySrc : List Path) : Rule :=
  { target := [".api-html.up2date"],
    prereqs := pySrc ++ [["profile.out"]],
    recipe := [.rmTree ["html", "api"],
               .mkdirp ["html", "api"],
               .gen ["html", "api"] apiHtmlArgs,
               .touch [".api-html.up2date"]] }

/-- The .doctest-html.up2date rule of src/Makefile: clear the doctest
html directory, convert each doctest with rst2html, aborting at the
first failure, then touch the sentinel. -/
def doctestRule (doctests : List Path) : Rule :=
  { target := [".doctest-html.up2date"], prereqs := doctests,
    recipe := [.rmTree ["html", "doctest"],
               .mkdirp ["html", "doctest"],
               .doctestLoop doctests ["html", "doctest"],
               .touch [".doctest-html.up2date"]] }

/-- The profile.out rule of src/Makefile: run epydoc with output
directory profile.tmp and the profiling option, then remove
profile.tmp.  No command writes profile.out. -/
def profileRule (pySrc : List Path) : Rule :=
  { target := ["profile.out"], prereqs := pySrc,
    recipe := [.gen ["profile.tmp"] profileArgs,
               .rmTree ["profile.tmp"]] }

/-- The .stdlib-pdf.up2date rule of src/Makefile.  Its recipe does not
touch the sentinel. -/
def stdlibPdfRule (pySrc slFiles : List Path) : Rule :=
  { target := [".stdlib-pdf.up2date"], prereqs := pySrc,
    recipe := [.rmTree ["latex", "stdlib"],
               .mkdirp ["latex", "stdlib"],
               .gen ["latex", "stdlib"]
                 (["--pdf", "--no-private",
                   "--name", "Python Standard Library",
                   "--docformat", "plaintext", "--debug", "--builtins"]
                  ++ (slFiles.map showPath))] }

/-- The rules of src/Makefile (the current Makefile revision).  The
shell-computed file lists (find and wildcard results) are parameters:
pySrc stands for PY_SRCFILES, docs for DOCS, doctests for DOCTESTS,
examplesSrc for EXAMPLES_SRC, slFiles for SLFILES.  Makefile variables:
WEBDIR=webpage, HTML_API=html/api, HTML_EXAMPLES=html/examples,
HTML_STDLIB=html/stdlib, HTML_DOCTEST=html/doctest, LATEX_API=latex/api,
LATEX_STDLIB=latex/stdlib. -/
def rulesMain (pySrc docs doctests examplesSrc slFiles : List Path) :
    List Rule :=
  [ { target := ["distributions"], prereqs := [[".distributions.up2date"]],
      recipe := [], phony := true },
    { target := [".distributions.up2date"],
      prereqs := [["test"]] ++ pySrc ++ [[".webpage.up2date"]] ++ docs,
      recipe := [.external "make -C src distributions",
                 .touch [".distributions.up2date"]] },
    { target := ["web"], prereqs := [["xfer"]], recipe := [], phony := true },
    { target := ["webpage"], prereqs := [["xfer"]], recipe := [],
      phony := true },
    { target := ["xfer"],
      prereqs := [["test"], [".webpage.up2date"], ["stdlib-html"]],
      recipe := [.external "rsync webpage/* to host",
                 .external "rsync html/stdlib/ to host"],
      phony := true },
    localRule,
    { target := ["checkdoc"], prereqs := [["checkdocs"]], recipe := [],
      phony := false },
    { target := ["checkdocs"], prereqs := [],
      recipe := [.external "epydoc --check --tests=vars,types src/epydoc/"],
      phony := true },
    webpageRule docs,
    { target := ["api-html"], prereqs := [[".api-html.up2date"]],
      recipe := [], phony := true },
    apiHtmlRule pySrc,
    { target := ["api-pdf"], prereqs := [[".api-pdf.up2date"]],
      recipe := [], phony := true },
    { target := [".api-pdf.up2date"], prereqs := pySrc,
      recipe := [.rmTree ["latex", "api"],
                 .mkdirp ["latex", "api"],
                 .gen ["latex", "api"]
                   ["--pdf", "--docformat", "plaintext",
                    "--name", "Epydoc $(VERSION)", "src/epydoc/", "-v"],
                 .touch [".api-pdf.up2date"]] },
    { target := ["doctest-html"], prereqs := [[".doctest-html.up2date"]],
      recipe := [], phony := false },
    doctestRule doctests,
    { target := ["examples"], prereqs := [[".examples.up2date"]],
      recipe := [], phony := true },
    { target := [".examples.up2date"], prereqs := examplesSrc ++ pySrc,
      recipe := [.rmTree ["html", "examples"],
                 .mkdirp ["html", "examples"],
                 .gen ["html", "examples"]
                   ["--name", "epydoc",
                    "--url", "http://epydoc.sourceforge.net",
                    "--css", "white", "--top", "epytext_example",
                    "--docformat=plaintext", "--navlink", "epydoc examples",
                    "doc/epytext_example.py", "sre"],
                 .gen ["html", "examples", "grouped"]
                   ["--inheritance=grouped", "--name", "epydoc",
                    "--url", "http://epydoc.sourceforge.net",
                    "--css", "white", "--debug", "--navlink",
                    "epydoc examples", "doc/inh_example.py"],
                 .gen ["html", "examples", "listed"]
                   ["--inheritance=listed", "--name", "epydoc",
                    "--url", "http://epydoc.sourceforge.net",
                    "--css", "white", "--debug", "--navlink",
                    "epydoc examples", "doc/inh_example.py"],
                 .gen ["html", "examples", "included"]
                   ["--inheritance=included", "--name", "epydoc",
                    "--url", "http://epydoc.sourceforge.net",
                    "--css", "white", "--debug", "--navlink",
                    "epydoc examples", "doc/inh_example.py"],
                 .touch [".examples.up2date"]] },
    { target := ["doc", "epydoc-man.html"], prereqs := [["man", "epydoc.1"]],
      recipe := [.genFile ["doc", "epydoc-man.html"]
                   ["man2html", "man/epydoc.1", "sed pipeline"]] },
    { target := ["doc", "epydocgui-man.html"],
      prereqs := [["man", "epydocgui.1"]],
      recipe := [.genFile ["doc", "epydocgui-man.html"]
                   ["man2html", "man/epydocgui.1", "sed pipeline"]] },
    profileRule pySrc,
    { target := ["stdlib-html"], prereqs := [[".stdlib-html.up2date"]],
      recipe := [], phony := true },
    { target := [".stdlib-html.up2date"], prereqs := pySrc,
      recipe := [.rmTree ["html", "stdlib"],
                 .mkdirp ["html", "stdlib"],
                 .external "echo Building stdlib html docs...",
                 .gen ["html", "stdlib"]
                   (["--css", "white", "--name", "Python Standard Library",
                     "--url", "http://www.python.org/doc/lib/lib.html",
                     "--debug", "--graph", "classtree", "--show-imports"]
                    ++ (slFiles.map showPath)),
                 .touch [".stdlib-html.up2date"]] },
    { target := ["stdlib-pdf"], prereqs := [[".stdlib-pdf.up2date"]],
      recipe := [], phony := true },
    stdlibPdfRule pySrc slFiles,
    { target := ["tests"], prereqs := [["test"]], recipe := [],
      phony := true },
    { target := ["test"], prereqs := [],
      recipe := [.external "python src/epydoc/test/__init__.py"],
      phony := true },
    { target := ["docutils"],
      prereqs := [["docutils-html"], ["docutils-pdf"]], recipe := [],
      phony := false },
    { target := ["docutils-html"], prereqs := [[".docutils-html.up2date"]],
      recipe := [], phony := false },
    { target := [".docutils-html.up2date"], prereqs := pySrc,
      recipe := [.rmTree ["html", "docutils"],
                 .mkdirp ["html", "docutils"],
                 .gen ["html", "docutils"]
                   ["-n", "Docutils", "--html", "--docformat", "plaintext",
                    "--ignore-param-mismatch",
                    "/usr/lib/python2.3/site-packages/docutils"],
                 .touch [".docutils-html.up2date"]] },
    { target := ["docutils-pdf"], prereqs := [[".docutils-pdf.up2date"]],
      recipe := [], phony := false },
    { target := [".docutils-pdf.up2date"], prereqs := pySrc,
      recipe := [.rmTree ["latex", "docutils"],
                 .mkdirp ["latex", "docutils"],
                 .gen ["latex", "docutils"]
                   ["-n", "Docutils", "--pdf", "--docformat", "plaintext",
                    "--ignore-param-mismatch",
                    "/usr/lib/python2.3/site-packages/docutils"],
                 .touch [".docutils-pdf.up2date"]] } ]

/-- The refdocs rules of the older Makefile revision that uses sentinel
.refdocs.up2date (API output directory doc/api in that revision). -/
def rulesRefdocs (pySrc : List Path) : List Rule :=
  [ { target := ["refdocs"], prereqs := [[".refdocs.up2date"]],
      recipe := [], phony := true },
    { target := [".refdocs.up2date"], prereqs := pySrc,
      recipe := [.rmTree ["doc", "api"],
                 .mkdirp ["doc", "api"],
                 .gen ["doc", "api"]
                   ["-n", "epydoc", "-u", "http://epydoc.sourceforge.net",
                    "--css", "blue", "--private-css", "green", "-vv", "-f"],
                 .touch [".refdocs.up2date"]] } ]

/-- The .stdlib.up2date rule of the Makefile revision that builds the
standard library docs with a sentinel (it ends by touching the
sentinel). -/
def ruleStdlibOld (pySrc slFiles : List Path) : Rule :=
  { target := [".stdlib.up2date"], prereqs := pySrc,
    recipe := [.rmTree ["stdlib"],
               .mkdirp ["stdlib"],
               .gen ["stdlib"]
                 (["-c", "white", "--show-imports",
                   "-n", "Python 2.2 Standard Library",
                   "-u", "http://www.python.org/doc/2.2/lib/lib.html",
                   "--docformat", "plaintext", "--debug",
                   "--navlink", "$(SLLINK)", "--builtins"]
                  ++ (slFiles.map showPath)),
               .touch [".stdlib.up2date"]] }

/-- A target is a sentinel when it is a single dotted component ending
in .up2date. -/
def isSentinel (t : Path) : Bool :=
  match t with
  | [s] => hiddenName s && (".up2date".data).isSuffixOf s.data
  | _ => false

/-- The rule for a target, when one exists. -/
def findRule (rules : List Rule) (t : Path) : Option Rule :=
  rules.find? (fun r => r.target = t)

/-- Make considers prerequisite p to put target tgt out of date: the
target does not exist, or the prerequisite does not exist (it must then
be remade or the build errors), or the prerequisite has a strictly newer
mtime than the target. -/
def outdatedBy (fs : FS) (tgt p : Path) : Bool :=
  match fs p, fs tgt with
  | some tp, some tt => decide (tt < tp)
  | none, _ => true
  | some _, none => true

/-- Make runs the recipe of rule r when the target is phony, or the
target file is missing, or some prerequisite is missing or newer than
the target.  The decision is made on the file mtimes after the
prerequisites have been brought up to date: a prerequisite whose
recipe ran without updating its file does not by itself force the
dependent to be remade. -/
def wantsRun (fs : FS) (r : Rule) : Bool :=
  r.phony || (fs r.target).isNone
    || r.prereqs.any (fun p => outdatedBy fs r.target p)

/-- The build evaluator of make, fuel-indexed on the prerequisite
depth: bring every prerequisite up to date first, then re-stat and run
the recipe when the timestamps demand it.  Returns the final state and
whether this recipe ran.  A name with no rule is a source file and is
never remade. -/
def buildAux (ok : Path → Bool) (rules : List Rule) :
    Nat → Path → St → St × Bool
  | 0, _, st => (st, false)
  | fuel + 1, t, st =>
    match findRule rules t with
    | none => (st, false)
    | some r =>
      let built := r.prereqs.foldl
        (fun acc p => (buildAux ok rules fuel p acc).1) st
      if wantsRun built.fs r then
        (runRecipe ok r.recipe built, true)
      else (built, false)

/-- The target t is recursively up to date in fs: when t has a rule, the
rule is not phony, the target file exists, and every prerequisite is in
turn up to date and not newer than the target.  Names without a rule are
sources and count as up to date. -/
def fresh (rules : List Rule) : Nat → FS → Path → Bool
  | 0, _, _ => false
  | fuel + 1, fs, t =>
    match findRule rules t with
    | none => true
    | some r =>
      !r.phony && (fs t).isSome
        && r.prereqs.all
             (fun p => fresh rules fuel fs p && !outdatedBy fs t p)

/-- Oracle under which every doctest conversion succeeds. -/
def okAll : Path → Bool := fun _ => true

/-- A Python value, as needed by the launcher script epydoc.pyw: a
module object (for the sys module the model carries its path
attribute), or a function object.  Module objects define no item
deletion. -/
inductive PyVal where
  | module (name : String) (path : List String)
  | pyfunc (name : String)
deriving DecidableEq

/-- A Python exception, by class name and message. -/
structure PyExn where
  cls : String
  msg : String
deriving DecidableEq

/-- One statement of the launcher script. -/
inductive PyStmt where
  | importModule (name : String)
  | delIndex (name : String) (i : Nat)
  | delAttrIndex (name attr : String) (i : Nat)
  | fromImport (modName member : String)
  | callName (f : String)
deriving DecidableEq

/-- The interpreter state of the script: the bound names, and the
events observed so far (imports performed, functions called). -/
structure PyState where
  env : List (String × PyVal)
  events : List String

/-- Bind a name in the environment. -/
def pyBind (env : List (String × PyVal)) (n : String) (v : PyVal) :
    List (String × PyVal) :=
  (n, v) :: env.filter (fun q => q.1 != n)

/-- Execute one statement of the script, following the Python
semantics: del m[i] on a module object raises TypeError, since the
module type supports no item deletion; del m.path[0] removes the first
element of the path list (IndexError when the list is too short);
from M import f performs the import of M and binds f; a call records a
call event.  The sys module is created with search path sysPath. -/
def pyStep (sysPath : List String) (st : PyState) (s : PyStmt) :
    PyState × Option PyExn :=
  match s with
  | .importModule n =>
    let p := if n = "sys" then sysPath else []
    ({ env := pyBind st.env n (.module n p),
       events := st.events ++ ["import " ++ n] }, none)
  | .delIndex n _ =>
    match st.env.lookup n with
    | none => (st, some ⟨"NameError", "name " ++ n ++ " is not defined"⟩)
    | some (.module _ _) =>
      (st, some ⟨"TypeError", "module object does not support item deletion"⟩)
    | some (.pyfunc _) =>
      (st, some ⟨"TypeError", "function object does not support item deletion"⟩)
  | .delAttrIndex n attr i =>
    match st.env.lookup n with
    | none => (st, some ⟨"NameError", "name " ++ n ++ " is not defined"⟩)
    | some (.module nm p) =>
      if attr = "path" then
        match p.drop i with
        | _ :: _ =>
          ({ st with env := pyBind st.env n (.module nm (p.eraseIdx i)) },
           none)
        | [] => (st, some ⟨"IndexError", "list assignment index out of range"⟩)
      else (st, some ⟨"AttributeError", "no attribute " ++ attr⟩)
    | some (.pyfunc _) => (st, some ⟨"AttributeError", "no attribute " ++ attr⟩)
  | .fromImport m f =>
    ({ env := pyBind st.env f (.pyfunc f),
       events := st.events ++ ["import " ++ m] }, none)
  | .callName f =>
    match st.env.lookup f with
    | some (.pyfunc _) =>
      ({ st with events := st.events ++ ["call " ++ f] }, none)
    | some (.module _ _) => (st, some ⟨"TypeError", "module object is not callable"⟩)
    | none => (st, some ⟨"NameError", "name " ++ f ++ " is not defined"⟩)

/-- Run the statements in order; an exception stops the script (it is
unhandled: the script installs no handler). -/
def pyRun (sysPath : List String) :
    List PyStmt → PyState → PyState × Option PyExn
  | [], st => (st, none)
  | s :: rest, st =>
    match pyStep sysPath st s with
    | (st1, none) => pyRun sysPath rest st1
    | (st1, some e) => (st1, some e)

/-- The launcher script src/scripts/epydoc.pyw, statement by
statement: first import sys, then del sys[0], then the gui import from
epydoc.gui, then the call gui(). -/
def epydocPyw : List PyStmt :=
  [.importModule "sys", .delIndex "sys" 0,
   .fromImport "epydoc.gui" "gui", .callName "gui"]

/-- Modelled from the spec: the launcher behaviour the spec describes
(and the comment in epydoc.pyw intends), namely removing the first
entry of the module search path sys.path and then invoking the gui
entry point: first import sys, then del sys.path[0], then importing
gui from epydoc.gui, then the call gui(). -/
def intendedPyw : List PyStmt :=
  [.importModule "sys", .delAttrIndex "sys" "path" 0,
   .fromImport "epydoc.gui" "gui", .callName "gui"]

/-- Execute the launcher script with the given initial sys.path. -/
def runLauncher (sysPath : List String) : PyState × Option PyExn :=
  pyRun sysPath epydocPyw ⟨[], []⟩

/-- Execute the spec-described launcher with the given initial
sys.path. -/
def runIntended (sysPath : List String) : PyState × Option PyExn :=
  pyRun sysPath intendedPyw ⟨[], []⟩

/-- A space or tab, for trimming configuration lines. -/
def isSpaceCh (c : Char) : Bool := c == ' ' || c == '\t'

/-- Trim blanks from both ends of a character list. -/
def trimCh (cs : List Char) : List Char :=
  ((cs.dropWhile isSpaceCh).reverse.dropWhile isSpaceCh).reverse

/-- Modelled from the spec: the configuration file reader is not part
of this source slice (the manual documents it as the standard
ConfigParser key/value parser).  A line is a section header, a comment
or blank line, or a key/value option line; an option line before any
section header is an error; the value starts after the first colon or
equals sign.  Returns the (section, key, value) entries in order. -/
def parseConfigAux : Option String → List String →
    Except String (List (String × String × String))
  | _, [] => .ok []
  | sect, l :: rest =>
    match trimCh l.data with
    | [] => parseConfigAux sect rest
    | c :: cs =>
      if c == '#' || c == ';' then parseConfigAux sect rest
      else if c == '[' then
        let inner := cs.takeWhile (fun d => d != ']')
        if Nat.blt inner.length cs.length then
          parseConfigAux (some (String.mk inner)) rest
        else .error ("invalid section header: " ++ l)
      else
        match sect with
        | none => .error ("file contains no section headers: " ++ l)
        | some s =>
          let t := c :: cs
          let keyPart := t.takeWhile (fun d => d != ':' && d != '=')
          if keyPart.length == t.length then
            .error ("source contains parsing errors: " ++ l)
          else
            (parseConfigAux (some s) rest).map
              (fun es =>
                (s, String.mk (trimCh keyPart),
                 String.mk (trimCh (t.drop (keyPart.length + 1)))) :: es)

/-- Read a configuration file. -/
def parseConfig (ls : List String) :
    Except String (List (String × String × String)) :=
  parseConfigAux none ls

/-- The example configuration file shown in the manual (manual-usage,
Configuration Files), with the rendering markup stripped. -/
def exampleConfigFile : List String :=
  ["[epydoc] # Epydoc section marker (required by ConfigParser)",
   "",
   "# Information about the project.",
   "name: My Cool Project",
   "url: http://cool.project/",
   "",
   "# The list of modules to document.  Modules can be named using",
   "# dotted names, module filenames, or package directory names.",
   "# This option may be repeated.",
   "modules: sys, os.path, re",
   "modules: my/project/driver.py",
   "",
   "# Write html output to the directory \"apidocs\"",
   "output: html",
   "target: apidocs/",
   "",
   "# Include all automatically generated graphs.  These graphs are",
   "# generated using Graphviz dot.",
   "graph: all",
   "dotpath: /usr/local/bin/dot"]

/-- The keys of parsed configuration entries, in order. -/
def configKeys (es : List (String × String × String)) : List String :=
  es.map (fun e => e.2.1)

/-- The sections of parsed configuration entries, in order. -/
def configSections (es : List (String × String × String)) : List String :=
  es.map (fun e => e.1)

/-- One line of text as a list of characters, for the sed model. -/
abbrev Line := List Char

/-- The characters of a string literal. -/
def lit (s : String) : Line := s.data

/-- Split a line at the first occurrence of the pattern p: return the
text before the occurrence and the text after it, or none when p does
not occur. -/
def splitFirst (p : Line) : Line → Option (Line × Line)
  | [] => if p.isPrefixOf ([] : Line) then some ([], []) else none
  | c :: t =>
    if p.isPrefixOf (c :: t) then some ([], (c :: t).drop p.length)
    else (splitFirst p t).map (fun ab => (c :: ab.1, ab.2))

/-- The sed command s/p/r/ on one line: replace the first occurrence of
p by r (sed without the g flag substitutes only the first occurrence on
each line). -/
def sedSub (p r : Line) (s : Line) : Line :=
  match splitFirst p s with
  | some (a, b) => a ++ r ++ b
  | none => s

/-- The sed command s/p.*// on one line: delete from the first
occurrence of p to the end of the line, leaving the text before it. -/
def sedCut (p : Line) (s : Line) : Line :=
  match splitFirst p s with
  | some (a, _) => a
  | none => s

/-- Whether the pattern occurs in the line. -/
def hasSub (p s : Line) : Bool := (splitFirst p s).isSome

/-- Does the pattern p occur in s starting at position i. -/
def occAt (p s : Line) (i : Nat) : Bool := p.isPrefixOf (s.drop i)

/-- All positions where the pattern occurs in the line. -/
def occList (p s : Line) : List Nat :=
  (List.range (s.length + 1)).filter (occAt p s)

/-- The stylesheet link inserted by the first sed stage. -/
def cssLink : Line :=
  lit "<link rel=\"stylesheet\" href=\"epydoc.css\" type=\"text/css\"/>"

/-- Sed stage 1 of the doc/epydoc-man.html rule: insert the stylesheet
link before the closing HEAD tag. -/
def manSed1 : List Line → List Line :=
  List.map (sedSub (lit "</HEAD>") (cssLink ++ lit "</HEAD>"))

/-- Sed stage 2: retitle the H1 heading. -/
def manSed2 : List Line → List Line :=
  List.map (sedSub (lit "<H1>EPYDOC</H1>") (lit "<H1>epydoc (1)</H1>"))

/-- Sed stage 3: open a DIV after the BODY tag. -/
def manSed3 : List Line → List Line :=
  List.map (sedSub (lit "<BODY>") (lit "<BODY><DIV CLASS=\"BODY\">"))

/-- Sed stage 4: blank the rest of the line from a Content-type: marker
(the substitution replaces the matched text by nothing; the line itself
remains, possibly empty). -/
def manSed4 : List Line → List Line :=
  List.map (sedCut (lit "Content-type:"))

/-- Sed stage 5 range blanking: from a line matching the first address
to the next line matching the second address, every line in the range is
blanked; the end address is tested from the line after the start
line. -/
def manSed5Go : Bool → List Line → List Line
  | _, [] => []
  | false, l :: ls =>
    if hasSub (lit "Section: User Commands") l then
      [] :: manSed5Go true ls
    else l :: manSed5Go false ls
  | true, l :: ls => [] :: manSed5Go (!hasSub (lit "<HR>") l) ls

/-- Sed stage 5 of the pipeline. -/
def manSed5 : List Line → List Line := manSed5Go false

/-- Sed stage 6: close the DIV before the closing BODY tag. -/
def manSed6 : List Line → List Line :=
  List.map (sedSub (lit "</BODY>") (lit "</DIV></BODY>"))

/-- Sed stage 7: on the first line holding a DD tag, remove that tag;
the loop of n commands then passes every following line through
unchanged (so later DD lines are untouched by this stage). -/
def manSed7 : List Line → List Line
  | [] => []
  | l :: ls =>
    if hasSub (lit "<DD>") l then sedSub (lit "<DD>") [] l :: ls
    else l :: manSed7 ls

/-- Sed stage 8 on one line: the leftmost longest match of the pattern
that is an anchor open tag, then anything, then a quote-close,
non-breaking space and anchor close; the backreference replacement
keeps everything up to the quote-close and drops the non-breaking space
and the anchor close.  The match starts at the first anchor open tag
and, being greedy, ends at the last quote-close occurrence. -/
def manSed8Line (s : Line) : Line :=
  match (occList (lit "<A NAME=\"") s).head? with
  | none => s
  | some st =>
    match ((occList (lit "\">&nbsp;</A>") s).filter
        (fun i => st + 9 ≤ i)).getLast? with
    | none => s
    | some i => s.take (i + 2) ++ s.drop (i + 12)

/-- Sed stage 8 of the pipeline. -/
def manSed8 : List Line → List Line := List.map manSed8Line

/-- Sed stage 9: close an anchor after each closing H2 tag. -/
def manSed9 : List Line → List Line :=
  List.map (sedSub (lit "</H2>") (lit "</H2></A>"))

/-- Sed stage 10: rewrite the cgi-bin man2html cross-reference for
epydocgui to the local file (the question mark and plus sign are
literal characters in a sed basic regular expression). -/
def manSed10 : List Line → List Line :=
  List.map (sedSub (lit "\"/cgi-bin/man2html?epydocgui+1\"")
    (lit "\"epydocgui-man.html\""))

/-- Sed stage 11: unlink the man2html footer reference. -/
def manSed11 : List Line → List Line :=
  List.map (sedSub (lit "<A HREF=\"/cgi-bin/man2html\">man2html</A>")
    (lit "man2html"))

/-- The composed sed pipeline of the doc/epydoc-man.html rule, applied
to the man2html output lines. -/
def manPipeline (ls : List Line) : List Line :=
  manSed11 (manSed10 (manSed9 (manSed8 (manSed7 (manSed6 (manSed5
    (manSed4 (manSed3 (manSed2 (manSed1 ls))))))))))

/-- A filesystem with exactly the listed entries. -/
def fsOf (l : List (Path × Nat)) : FS := fun p => l.lookup p

/-- The empty filesystem. -/
def emptyFS : FS := fun _ => none

/-- The clock of the state bounds every mtime in its filesystem (every
command stamps the current clock and then advances it, so this is an
invariant of recipe execution). -/
def wfClock (st : St) : Prop := ∀ p t, st.fs p = some t → t < st.clock

/-- An oracle that fails exactly on one file. -/
def okExcept (bad : Path) : Path → Bool := fun f => f != bad

/-- A sample value for PY_SRCFILES. -/
def samplePySrc : List Path :=
  [["src", "epydoc", "cli.py"], ["src", "epydoc", "epytext.py"]]

/-- A sample value for DOCS. -/
def sampleDocs : List Path :=
  [["doc", "index.html"], ["doc", "epydoc.css"]]

/-- A sample value for DOCTESTS. -/
def sampleDoctests : List Path :=
  [["src", "epydoc", "test", "epytext.doctest"],
   ["src", "epydoc", "test", "fields.doctest"]]

/-- A sample value for EXAMPLES_SRC. -/
def sampleExamples : List Path :=
  [["doc", "epytext_example.py"], ["doc", "inh_example.py"]]

/-- A sample value for SLFILES. -/
def sampleSl : List Path := [["usr", "lib", "python2.4", "os.py"]]

/-- The src/Makefile rules with the sample file lists. -/
def rulesEx : List Rule :=
  rulesMain samplePySrc sampleDocs sampleDoctests sampleExamples sampleSl

/-- A filesystem where the .api-html.up2date sentinel exists and is
newer than every prerequisite of its rule, but profile.out is older
than a source file. -/
def exFS5 : FS :=
  fsOf [(["src", "epydoc", "cli.py"], 5), (["src", "epydoc", "epytext.py"], 5),
        (["profile.out"], 3), ([".api-html.up2date"], 10)]

/-- A filesystem where the .api-html.up2date and .refdocs.up2date
sentinels are recursively up to date: sources older than profile.out,
profile.out older than the sentinels. -/
def exFS5w : FS :=
  fsOf [(["src", "epydoc", "cli.py"], 1), (["src", "epydoc", "epytext.py"], 1),
        (["profile.out"], 2), ([".api-html.up2date"], 3),
        ([".refdocs.up2date"], 3)]

/-- A filesystem with one file in each input tree of the webpage
recipe and one stale file under webpage. -/
def exFS6 : FS :=
  fsOf [(["doc", "index.html"], 1),
        (["html", "api", "index.html"], 2),
        (["html", "examples", "x.html"], 3),
        (["html", "doctest", "epytext.html"], 4),
        (["latex", "api", "api.pdf"], 5),
        (["webpage", "stale.html"], 6)]

/-- A local web root holding a hidden file that is not part of the
webpage build. -/
def exFS10 : FS :=
  fsOf [(["var", "www", "epydoc", ".htaccess"], 1),
        (["webpage", "index.html"], 2)]

/-- A three-line input page holding a Content-type: line. -/
def ctDemo : List Line :=
  [lit "<HTML>", lit "Content-type: text/html", lit "</HTML>"]

/-- A sample man2html output page exercising the four transforms of the
claim. -/
def samplePage : List Line :=
  [lit "Content-type: text/html",
   lit "<HTML><HEAD><TITLE>EPYDOC</TITLE></HEAD>",
   lit "<BODY>",
   lit "<H1>EPYDOC</H1>",
   lit "see <A HREF=\"/cgi-bin/man2html?epydocgui+1\">epydocgui</A>",
   lit "</BODY>"]

/-- The expected output of the pipeline on the sample page. -/
def samplePageOut : List Line :=
  [[],
   lit "<HTML><HEAD><TITLE>EPYDOC</TITLE>" ++ cssLink ++ lit "</HEAD>",
   lit "<BODY><DIV CLASS=\"BODY\">",
   lit "<H1>epydoc (1)</H1>",
   lit "see <A HREF=\"epydocgui-man.html\">epydocgui</A>",
   lit "</DIV></BODY>"]

/-- Whether an option list holds the two given adjacent entries. -/
def hasOptPair (k v : String) : List String → Bool
  | a :: b :: rest => (a = k && b = v) || hasOptPair k v (b :: rest)
  | _ => false

/-- Whether parsing succeeded. -/
def exceptIsOk {α : Type} (e : Except String α) : Bool :=
  match e with
  | .ok _ => true
  | .error _ => false

/-- The entries of a parse result (empty on error). -/
def configResult (e : Except String (List (String × String × String))) :
    List (String × String × String) :=
  match e with
  | .ok es => es
  | .error _ => []

/-- The entries the manual example parses to. -/
def exampleEntries : List (String × String × String) :=
  [("epydoc", "name", "My Cool Project"),
   ("epydoc", "url", "http://cool.project/"),
   ("epydoc", "modules", "sys, os.path, re"),
   ("epydoc", "modules", "my/project/driver.py"),
   ("epydoc", "output", "html"),
   ("epydoc", "target", "apidocs/"),
   ("epydoc", "graph", "all"),
   ("epydoc", "dotpath", "/usr/local/bin/dot")]

/-- The filesystem produced by running the .webpage.up2date recipe on
filesystem fs at clock c. -/
def webpageRun (ok : Path → Bool) (docs : List Path) (fs : FS) (c : Nat) :
    FS :=
  (runRecipe ok (webpageRule docs).recipe ⟨fs, c, [], false⟩).fs

/-- The build state after the first two commands of the
.doctest-html.up2date recipe (clear and recreate html/doctest), when
execution starts at filesystem fs and clock c. -/
def dtStart (fs : FS) (c : Nat) : St :=
  { fs := FS.set (cmdFS (Cmd.rmTree ["html", "doctest"]) c fs)
            ["html", "doctest"] (c + 1),
    clock := c + 1 + 1,
    trace := ["rm -rf html/doctest", "mkdir -p html/doctest"],
    failed := false }

/-!  Theorems.  The helper lemmas come first, then one theorem per
claim (with its witness or counterexample). -/

/-- C2: every execution of epydoc.pyw stops at the statement del sys[0]
with a TypeError (a module object supports no item deletion) before
the import of epydoc.gui is reached, so the gui entry point is never
invoked and the script ends with an unhandled exception. -/
theorem C2_del_sys_raises_typeerror (sysPath : List String) :
    runLauncher sysPath =
      ({ env := [("sys", PyVal.module "sys" sysPath)],
         events := ["import sys"] },
       some { cls := "TypeError",
              msg := "module object does not support item deletion" })
    ∧ "import epydoc.gui" ∉ (runLauncher sysPath).1.events
    ∧ "call gui" ∉ (runLauncher sysPath).1.events := by
  refine ⟨rfl, ?_, ?_⟩
  · have he : (runLauncher sysPath).1.events = ["import sys"] := rfl
    rw [he]; decide
  · have he : (runLauncher sysPath).1.events = ["import sys"] := rfl
    rw [he]; decide

/-- C1 (code bug evidence): the script as written never reaches
the import and never calls gui, because del sys[0] raises TypeError; the
behaviour the spec (and the comment in the script) describes, namely
del sys.path[0] followed by the import and the call, completes without
exception, drops the first sys.path entry and invokes gui. -/
theorem C1_launcher_never_reaches_gui (x : String) (rest : List String) :
    "call gui" ∉ (runLauncher (x :: rest)).1.events
    ∧ (runLauncher (x :: rest)).2 =
        some { cls := "TypeError",
               msg := "module object does not support item deletion" }
    ∧ runIntended (x :: rest) =
        ({ env := [("gui", PyVal.pyfunc "gui"),
                   ("sys", PyVal.module "sys" rest)],
           events := ["import sys", "import epydoc.gui", "call gui"] },
         none) := by
  refine ⟨?_, rfl, rfl⟩
  have he : (runLauncher (x :: rest)).1.events = ["import sys"] := rfl
  rw [he]; decide

/-- C8: the manual documents the configuration format as read by the
standard ConfigParser; the [epydoc] section marker is required (an
option line with no preceding section header is a parse error), and the
keys shown in the example are exactly name, url, modules, output,
target, graph and dotpath, with modules appearing twice. -/
theorem C8_config_file_format :
    exceptIsOk (parseConfig exampleConfigFile) = true
    ∧ configResult (parseConfig exampleConfigFile) = exampleEntries
    ∧ configKeys exampleEntries =
        ["name", "url", "modules", "modules",
         "output", "target", "graph", "dotpath"]
    ∧ configSections exampleEntries = List.replicate 8 "epydoc"
    ∧ exceptIsOk (parseConfig (exampleConfigFile.drop 1)) = false := by
  refine ⟨by decide, by decide, by decide, by decide, by decide⟩

/-- C3 counterexample: not every sentinel-target rule of the Makefile
ends by touching its sentinel; the .stdlib-pdf.up2date rule, which the
claim names, has no touch command at all in its recipe. -/
theorem C3_counterexample :
    ¬ (∀ r ∈ rulesEx, isSentinel r.target = true →
         r.recipe.getLast? = some (.touch r.target))
    ∧ ∀ r ∈ rulesEx, r.target = [".stdlib-pdf.up2date"] →
        isSentinel r.target = true ∧ ∀ c ∈ r.recipe, c ≠ .touch r.target := by
  decide

/-- C5 counterexample: in a state where the sentinel .api-html.up2date
exists and is strictly newer than every prerequisite of its rule (the
sources and profile.out all exist and are older), invoking api-html
still runs recipe commands: profile.out is older than a source, so
make reruns the profiling recipe every time.  The sentinel itself is
not remade (its mtime stays 10, as make decides by timestamps alone),
but the claimed absence of recipe commands is refuted. -/
theorem C5_counterexample :
    exFS5 [".api-html.up2date"] = some 10
    ∧ (∀ p ∈ (apiHtmlRule samplePySrc).prereqs,
        (exFS5 p).isSome = true
        ∧ outdatedBy exFS5 [".api-html.up2date"] p = false)
    ∧ (buildAux okAll rulesEx 6 ["api-html"] ⟨exFS5, 20, [], false⟩).1.trace
        ≠ []
    ∧ (buildAux okAll rulesEx 6 ["api-html"] ⟨exFS5, 20, [], false⟩).1.trace
        = ["epydoc -o profile.tmp", "rm -rf profile.tmp"]
    ∧ (buildAux okAll rulesEx 6 ["api-html"] ⟨exFS5, 20, [], false⟩).1.fs
        [".api-html.up2date"] = some 10 := by
  decide

/-- C10 counterexample: the shell glob in rm -rf /var/www/epydoc/* does
not match hidden names, so a dotfile that was in the local web root and
is not part of the webpage build survives the local target. -/
theorem C10_counterexample :
    exFS10 ["var", "www", "epydoc", ".htaccess"] = some 1
    ∧ exFS10 ["webpage", ".htaccess"] = none
    ∧ (runRecipe okAll localRule.recipe ⟨exFS10, 10, [], false⟩).fs
        ["var", "www", "epydoc", ".htaccess"] = some 1 := by
  decide

/-- Helper: one command either stamps the current clock, deletes, or
keeps an old entry. -/
lemma cmdFS_cases (c : Cmd) (t : Nat) (fs : FS) (p : Path) :
    cmdFS c t fs p = some t ∨ cmdFS c t fs p = none
    ∨ ∃ q, cmdFS c t fs p = fs q := by
  cases c with
  | touch q =>
    by_cases hq : p = q
    · left; simp [cmdFS, FS.set, hq]
    · right; right; exact ⟨p, by simp [cmdFS, FS.set, hq]⟩
  | rmTree q =>
    by_cases hq : q.isPrefixOf p = true
    · right; left; simp [cmdFS, hq]
    · right; right; exact ⟨p, by simp [cmdFS, hq]⟩
  | rmChildren q =>
    rcases hm : childOf q p with _ | ⟨c0, r⟩
    · right; right; exact ⟨p, by simp [cmdFS, hm]⟩
    · by_cases hh : hiddenName c0 = true
      · right; right; exact ⟨p, by simp [cmdFS, hm, hh]⟩
      · right; left; simp [cmdFS, hm, hh]
  | mkdirp q =>
    by_cases hq : p = q
    · left; simp [cmdFS, FS.set, hq]
    · right; right; exact ⟨p, by simp [cmdFS, FS.set, hq]⟩
  | copyTree s d =>
    by_cases hq : (d.isPrefixOf p && (fs (s ++ p.drop d.length)).isSome) = true
    · left; simp [cmdFS, hq]
    · right; right; exact ⟨p, by simp [cmdFS, hq]⟩
  | copyChildren s d =>
    rcases hm : childOf d p with _ | ⟨c0, r⟩
    · right; right; exact ⟨p, by simp [cmdFS, hm]⟩
    · by_cases hcond : (!hiddenName c0 && (fs (s ++ c0 :: r)).isSome) = true
      · left; simp [cmdFS, hm, hcond]
      · right; right; exact ⟨p, by simp [cmdFS, hm, hcond]⟩
  | copyFile s d =>
    by_cases hs : (fs s).isSome = true
    · by_cases hpd : p = d
      · left; simp [cmdFS, FS.set, hs, hpd]
      · right; right; exact ⟨p, by simp [cmdFS, FS.set, hs, hpd]⟩
    · right; right; exact ⟨p, by simp [cmdFS, hs]⟩
  | gen dir args =>
    by_cases hq : p = dir
    · left; simp [cmdFS, FS.set, hq]
    · right; right; exact ⟨p, by simp [cmdFS, FS.set, hq]⟩
  | genFile q args =>
    by_cases hq : p = q
    · left; simp [cmdFS, FS.set, hq]
    · right; right; exact ⟨p, by simp [cmdFS, FS.set, hq]⟩
  | doctestLoop files o => right; right; exact ⟨p, by simp [cmdFS]⟩
  | external s => right; right; exact ⟨p, by simp [cmdFS]⟩

/-- Helper: the doctest loop preserves the clock invariant. -/
lemma wf_dtLoop (ok : Path → Bool) (outDir : Path) :
    ∀ (files : List Path) (st : St), wfClock st →
      wfClock (dtLoop ok outDir files st) := by
  intro files
  induction files with
  | nil => intro st h; exact h
  | cons f rest ih =>
    intro st h
    simp only [dtLoop]
    split
    · apply ih
      intro p u hp
      simp only [FS.set] at hp
      dsimp only at hp ⊢
      split at hp
      · cases hp; exact Nat.lt_succ_self _
      · exact Nat.lt_succ_of_lt (h p u hp)
    · exact h

/-- Helper: one command preserves the clock invariant. -/
lemma wf_execCmd (ok : Path → Bool) (c : Cmd) (st : St) (h : wfClock st) :
    wfClock (execCmd ok c st) := by
  cases c with
  | doctestLoop files outDir => exact wf_dtLoop ok outDir files st h
  | _ =>
    intro p u hp
    simp only [execCmd] at hp ⊢
    rcases cmdFS_cases _ st.clock st.fs p with hc | hc | ⟨q, hc⟩ <;>
      rw [hc] at hp
    · cases hp; exact Nat.lt_succ_self _
    · exact absurd hp (by simp)
    · exact Nat.lt_succ_of_lt (h q u hp)

/-- Helper: a recipe preserves the clock invariant. -/
lemma wf_runRecipe (ok : Path → Bool) (cmds : List Cmd) :
    ∀ st : St, wfClock st → wfClock (runRecipe ok cmds st) := by
  induction cmds with
  | nil => intro st h; exact h
  | cons c rest ih =>
    intro st h
    have : runRecipe ok (c :: rest) st
        = runRecipe ok rest (if st.failed then st else execCmd ok c st) := rfl
    rw [this]
    by_cases hf : st.failed
    · rw [if_pos hf]; exact ih st h
    · rw [if_neg hf]; exact ih _ (wf_execCmd ok c st h)

/-- Helper: recipes split at concatenation. -/
lemma runRecipe_append (ok : Path → Bool) (A B : List Cmd) (st : St) :
    runRecipe ok (A ++ B) st = runRecipe ok B (runRecipe ok A st) := by
  simp [runRecipe, List.foldl_append]

/-- C3 (amended): every sentinel-target rule of src/Makefile except
.stdlib-pdf.up2date ends by touching its sentinel (so does the
.stdlib.up2date rule of the older revision), and a recipe that ends
with touching its sentinel and completes leaves the sentinel present
and strictly newer than every other file, the prerequisites
included. -/
theorem C3_amended :
    (∀ pySrc docs doctests examplesSrc slFiles,
       ∀ r ∈ rulesMain pySrc docs doctests examplesSrc slFiles,
         isSentinel r.target = true → r.target ≠ [".stdlib-pdf.up2date"] →
           r.recipe.getLast? = some (.touch r.target))
    ∧ (∀ pySrc slFiles,
         (ruleStdlibOld pySrc slFiles).recipe.getLast? =
           some (.touch [".stdlib.up2date"]))
    ∧ (∀ (ok : Path → Bool) (cmds : List Cmd) (s : Path) (st : St),
         wfClock st →
         (runRecipe ok (cmds ++ [Cmd.touch s]) st).failed = false →
         ∃ t, (runRecipe ok (cmds ++ [Cmd.touch s]) st).fs s = some t
           ∧ ∀ q u, q ≠ s →
               (runRecipe ok (cmds ++ [Cmd.touch s]) st).fs q = some u →
                 u < t) := by
  refine ⟨?_, ?_, ?_⟩
  · intro pySrc docs doctests examplesSrc slFiles r hr h1 h2
    simp only [rulesMain, List.mem_cons, List.not_mem_nil, or_false] at hr
    rcases hr with rfl | rfl | rfl | rfl | rfl | rfl | rfl | rfl | rfl | rfl |
      rfl | rfl | rfl | rfl | rfl | rfl | rfl | rfl | rfl | rfl | rfl | rfl |
      rfl | rfl | rfl | rfl | rfl | rfl | rfl | rfl | rfl <;>
      first
        | rfl
        | exact absurd h1 Bool.false_ne_true
        | exact absurd rfl h2
  · intro pySrc slFiles; rfl
  · intro ok cmds s st hwf hfail
    have h1 : runRecipe ok (cmds ++ [Cmd.touch s]) st
        = if (runRecipe ok cmds st).failed then runRecipe ok cmds st
          else execCmd ok (Cmd.touch s) (runRecipe ok cmds st) := by
      rw [runRecipe_append]; rfl
    by_cases hf : (runRecipe ok cmds st).failed
    · rw [h1, if_pos hf] at hfail
      exact absurd hfail (by simp [hf])
    · rw [h1, if_neg hf]
      have hwm : wfClock (runRecipe ok cmds st) := wf_runRecipe ok cmds st hwf
      refine ⟨(runRecipe ok cmds st).clock, ?_, ?_⟩
      · simp [execCmd, cmdFS, FS.set]
      · intro q u hq hqe
        have hqs : (runRecipe ok cmds st).fs q = some u := by
          simpa [execCmd, cmdFS, FS.set, hq] using hqe
        exact hwm q u hqs

/-- Witness for C3 (amended), at the .webpage.up2date rule and at a
one-command recipe run from the empty filesystem. -/
theorem C3_amended_witness :
    ((webpageRule sampleDocs) ∈ rulesEx
      ∧ isSentinel (webpageRule sampleDocs).target = true
      ∧ (webpageRule sampleDocs).target ≠ [".stdlib-pdf.up2date"]
      ∧ (webpageRule sampleDocs).recipe.getLast?
          = some (.touch (webpageRule sampleDocs).target))
    ∧ (∃ t, (runRecipe okAll ([] ++ [Cmd.touch [".webpage.up2date"]])
            ⟨emptyFS, 0, [], false⟩).fs [".webpage.up2date"] = some t
          ∧ ∀ q u, q ≠ [".webpage.up2date"] →
              (runRecipe okAll ([] ++ [Cmd.touch [".webpage.up2date"]])
                ⟨emptyFS, 0, [], false⟩).fs q = some u → u < t) := by
  have hwf : wfClock ⟨emptyFS, 0, [], false⟩ := by
    intro p t h; exact absurd h (by simp [emptyFS])
  refine ⟨⟨by decide, by decide, by decide,
    C3_amended.1 samplePySrc sampleDocs sampleDoctests sampleExamples sampleSl
      (webpageRule sampleDocs) (by decide) (by decide) (by decide)⟩,
    C3_amended.2.2 okAll [] [".webpage.up2date"] ⟨emptyFS, 0, [], false⟩ hwf
      (by decide)⟩

/-- Helper: the doctest loop fails exactly when a conversion fails. -/
lemma dtLoop_failed (ok : Path → Bool) (outDir : Path) :
    ∀ (files : List Path) (st : St),
      (dtLoop ok outDir files st).failed = (st.failed || !(files.all ok)) := by
  intro files
  induction files with
  | nil => intro st; simp [dtLoop]
  | cons f rest ih =>
    intro st
    cases hf : ok f
    · simp [dtLoop, hf]
    · simp [dtLoop, hf, ih]

/-- Helper: the doctest loop writes only conversion outputs. -/
lemma dtLoop_fs_out (ok : Path → Bool) (outDir : Path) (q : Path)
    (hq : ∀ f, doctestOut outDir f ≠ q) :
    ∀ (files : List Path) (st : St),
      (dtLoop ok outDir files st).fs q = st.fs q := by
  intro files
  induction files with
  | nil => intro st; rfl
  | cons f rest ih =>
    intro st
    cases hf : ok f
    · simp [dtLoop, hf]
    · rw [dtLoop]
      rw [if_pos (by simp [hf])]
      rw [ih]
      dsimp only
      simp only [FS.set]
      rw [if_neg (fun h => hq f h.symm)]

/-- Helper: the trace added by the loop is one rst2html entry per
converted file, in order, when every conversion succeeds. -/
lemma dtLoop_trace_ok (ok : Path → Bool) (outDir : Path) :
    ∀ (files : List Path) (st : St), (∀ f ∈ files, ok f = true) →
      (dtLoop ok outDir files st).trace =
        st.trace ++ files.map (fun f => "rst2html " ++ showPath f) := by
  intro files
  induction files with
  | nil => intro st _; simp [dtLoop]
  | cons f rest ih =>
    intro st hall
    have hf : ok f = true := hall f (by simp)
    rw [dtLoop, if_pos (by simp [hf])]
    rw [ih _ (fun g hg => hall g (by simp [hg]))]
    simp

/-- Helper: at the first failing conversion the loop stops, with the
successful conversions and the failing one in the trace. -/
lemma dtLoop_trace_fail (ok : Path → Bool) (outDir : Path) (f : Path)
    (B : List Path) (hf : ok f = false) :
    ∀ (A : List Path) (st : St), (∀ g ∈ A, ok g = true) →
      (dtLoop ok outDir (A ++ f :: B) st).trace =
        st.trace ++ A.map (fun g => "rst2html " ++ showPath g)
          ++ ["rst2html " ++ showPath f]
      ∧ (dtLoop ok outDir (A ++ f :: B) st).failed = true := by
  intro A
  induction A with
  | nil =>
    intro st _
    constructor
    · rw [List.nil_append, dtLoop, if_neg (by simp [hf])]
      simp
    · rw [List.nil_append, dtLoop, if_neg (by simp [hf])]
  | cons g A ih =>
    intro st hall
    have hg : ok g = true := hall g (by simp)
    rw [List.cons_append, dtLoop, if_pos (by simp [hg])]
    have hA : ∀ x ∈ A, ok x = true := fun x hx => hall x (by simp [hx])
    refine ⟨?_, (ih _ hA).2⟩
    rw [(ih _ hA).1]
    simp

/-- Helper: a conversion entry is never the sentinel touch entry. -/
lemma ne_rst2html (s : String) :
    ("rst2html " ++ s) ≠ "touch .doctest-html.up2date" := by
  intro h
  have hd : ("rst2html " ++ s).data = ("touch .doctest-html.up2date").data :=
    congrArg String.data h
  rw [String.data_append] at hd
  have h2 : (("rst2html ").data ++ s.data).head? =
      (("touch .doctest-html.up2date").data).head? := congrArg _ hd
  simp at h2

/-- Helper: every trace entry of the loop is an old entry or an
rst2html entry. -/
lemma dtLoop_trace_mem (ok : Path → Bool) (outDir : Path) :
    ∀ (files : List Path) (st : St) (e : String),
      e ∈ (dtLoop ok outDir files st).trace →
      e ∈ st.trace ∨ ∃ f, e = "rst2html " ++ showPath f := by
  intro files
  induction files with
  | nil => intro st e he; exact Or.inl he
  | cons f rest ih =>
    intro st e he
    by_cases hf : ok f = true
    · rw [dtLoop, if_pos (by simp [hf])] at he
      rcases ih _ e he with hm | hm
      · dsimp only at hm
        rcases List.mem_append.mp hm with hm1 | hm1
        · exact Or.inl hm1
        · exact Or.inr ⟨f, by simpa using hm1⟩
      · exact Or.inr hm
    · rw [dtLoop, if_neg (by simpa using hf)] at he
      dsimp only at he
      rcases List.mem_append.mp he with hm1 | hm1
      · exact Or.inl hm1
      · exact Or.inr ⟨f, by simpa using hm1⟩

/-- Helper: the .doctest-html.up2date recipe is the two preparation
commands, the conversion loop, and the conditional sentinel touch. -/
lemma doctestRecipe_run (ok : Path → Bool) (doctests : List Path)
    (fs : FS) (c : Nat) :
    runRecipe ok (doctestRule doctests).recipe ⟨fs, c, [], false⟩
      = (if (dtLoop ok ["html", "doctest"] doctests (dtStart fs c)).failed
         then dtLoop ok ["html", "doctest"] doctests (dtStart fs c)
         else execCmd ok (Cmd.touch [".doctest-html.up2date"])
                (dtLoop ok ["html", "doctest"] doctests (dtStart fs c))) :=
  rfl

/-- C4: running the .doctest-html.up2date recipe fails exactly when
some conversion fails; the sentinel is touched exactly when every
conversion succeeds; on failure the sentinel entry is unchanged; and
when the doctest list splits as A ++ f :: B with every conversion in A
succeeding and f failing, the recipe stops at f: the trace is the two
preparation commands, the conversions of A, and the failing conversion
of f, with nothing after it. -/
theorem C4_doctest_recipe (ok : Path → Bool) (doctests : List Path)
    (fs : FS) (c : Nat) :
    ((runRecipe ok (doctestRule doctests).recipe ⟨fs, c, [], false⟩).failed
        = false ↔ ∀ f ∈ doctests, ok f = true)
    ∧ ("touch .doctest-html.up2date"
        ∈ (runRecipe ok (doctestRule doctests).recipe ⟨fs, c, [], false⟩).trace
       ↔ ∀ f ∈ doctests, ok f = true)
    ∧ ((runRecipe ok (doctestRule doctests).recipe ⟨fs, c, [], false⟩).failed
        = true →
       (runRecipe ok (doctestRule doctests).recipe ⟨fs, c, [], false⟩).fs
          [".doctest-html.up2date"] = fs [".doctest-html.up2date"])
    ∧ (∀ A f B, doctests = A ++ f :: B → (∀ g ∈ A, ok g = true) →
        ok f = false →
        (runRecipe ok (doctestRule doctests).recipe ⟨fs, c, [], false⟩).trace
          = ["rm -rf html/doctest", "mkdir -p html/doctest"]
              ++ A.map (fun g => "rst2html " ++ showPath g)
              ++ ["rst2html " ++ showPath f]
        ∧ (runRecipe ok (doctestRule doctests).recipe
            ⟨fs, c, [], false⟩).failed = true) := by
  have hf3 : (dtLoop ok ["html", "doctest"] doctests (dtStart fs c)).failed
      = !(doctests.all ok) := by
    rw [dtLoop_failed]; rfl
  have hforall : (∀ f ∈ doctests, ok f = true) ↔ doctests.all ok = true := by
    simp [List.all_eq_true]
  refine ⟨?_, ?_, ?_, ?_⟩
  · rw [doctestRecipe_run]
    cases hall : doctests.all ok
    · have hft : (dtLoop ok ["html", "doctest"] doctests
          (dtStart fs c)).failed = true := by rw [hf3, hall]; rfl
      rw [if_pos hft, hft]
      refine iff_of_false (by simp) ?_
      intro hforall2
      rw [hforall] at hforall2
      rw [hall] at hforall2
      cases hforall2
    · have hff : (dtLoop ok ["html", "doctest"] doctests
          (dtStart fs c)).failed = false := by rw [hf3, hall]; rfl
      rw [if_neg (by rw [hff]; exact Bool.false_ne_true)]
      refine iff_of_true ?_ (hforall.mpr hall)
      simp [execCmd, hff]
  · rw [doctestRecipe_run]
    cases hall : doctests.all ok
    · have hft : (dtLoop ok ["html", "doctest"] doctests
          (dtStart fs c)).failed = true := by rw [hf3, hall]; rfl
      rw [if_pos hft]
      refine iff_of_false ?_ ?_
      · intro hmem
        rcases dtLoop_trace_mem ok _ doctests _ _ hmem with hm | ⟨f, hm⟩
        · simp [dtStart] at hm
        · exact ne_rst2html (showPath f) hm.symm
      · intro hforall2
        rw [hforall] at hforall2
        rw [hall] at hforall2
        cases hforall2
    · have hff : (dtLoop ok ["html", "doctest"] doctests
          (dtStart fs c)).failed = false := by rw [hf3, hall]; rfl
      rw [if_neg (by rw [hff]; exact Bool.false_ne_true)]
      refine iff_of_true ?_ (hforall.mpr hall)
      simp [execCmd]
      exact Or.inr rfl
  · rw [doctestRecipe_run]
    cases hall : doctests.all ok
    · have hft : (dtLoop ok ["html", "doctest"] doctests
          (dtStart fs c)).failed = true := by rw [hf3, hall]; rfl
      rw [if_pos hft]
      intro _
      have hout : ∀ f, doctestOut ["html", "doctest"] f
          ≠ [".doctest-html.up2date"] := by
        intro f; simp [doctestOut]
      rw [dtLoop_fs_out ok _ _ hout]
      simp only [dtStart, FS.set, cmdFS]
      rw [if_neg (by decide), if_neg (by decide)]
    · have hff : (dtLoop ok ["html", "doctest"] doctests
          (dtStart fs c)).failed = false := by rw [hf3, hall]; rfl
      rw [if_neg (by rw [hff]; exact Bool.false_ne_true)]
      intro hcontra
      rw [show (execCmd ok (Cmd.touch [".doctest-html.up2date"])
          (dtLoop ok ["html", "doctest"] doctests (dtStart fs c))).failed
            = (dtLoop ok ["html", "doctest"] doctests (dtStart fs c)).failed
          from rfl, hff] at hcontra
      cases hcontra
  · intro A f B hsplit hA hfB
    subst hsplit
    have hfail := dtLoop_trace_fail ok ["html", "doctest"] f B hfB A
      (dtStart fs c) hA
    rw [doctestRecipe_run, if_pos hfail.2]
    refine ⟨?_, hfail.2⟩
    rw [hfail.1]
    rfl

/-- Witness for C4, on the sample doctest list: with an oracle failing
exactly on the second file, the trace stops at that conversion and the
recipe fails; with the all-success oracle the recipe succeeds. -/
theorem C4_doctest_recipe_witness :
    (sampleDoctests
        = [["src", "epydoc", "test", "epytext.doctest"]]
          ++ ["src", "epydoc", "test", "fields.doctest"] :: []
      ∧ (∀ g ∈ [["src", "epydoc", "test", "epytext.doctest"]],
          okExcept ["src", "epydoc", "test", "fields.doctest"] g = true)
      ∧ okExcept ["src", "epydoc", "test", "fields.doctest"]
          ["src", "epydoc", "test", "fields.doctest"] = false)
    ∧ ((runRecipe (okExcept ["src", "epydoc", "test", "fields.doctest"])
          (doctestRule sampleDoctests).recipe ⟨emptyFS, 0, [], false⟩).trace
        = ["rm -rf html/doctest", "mkdir -p html/doctest"]
            ++ [["src", "epydoc", "test", "epytext.doctest"]].map
                 (fun g => "rst2html " ++ showPath g)
            ++ ["rst2html "
                 ++ showPath ["src", "epydoc", "test", "fields.doctest"]]
       ∧ (runRecipe (okExcept ["src", "epydoc", "test", "fields.doctest"])
            (doctestRule sampleDoctests).recipe
            ⟨emptyFS, 0, [], false⟩).failed = true)
    ∧ (runRecipe okAll (doctestRule sampleDoctests).recipe
        ⟨emptyFS, 0, [], false⟩).failed = false :=
  ⟨⟨by decide, by decide, by decide⟩,
   (C4_doctest_recipe (okExcept ["src", "epydoc", "test", "fields.doctest"])
      sampleDoctests emptyFS 0).2.2.2
     [["src", "epydoc", "test", "epytext.doctest"]]
     ["src", "epydoc", "test", "fields.doctest"] []
     (by decide) (by decide) (by decide),
   (C4_doctest_recipe okAll sampleDoctests emptyFS 0).1.mpr (by decide)⟩

/-- C9: the profile.out recipe never creates or removes a profile.out
entry (it writes only profile.tmp and removes it), so starting without
profile.out the file still does not exist afterwards; a missing
profile.out makes make consider the target out of date on every build;
and the api-html recipe passes the option pair --pstat profile.out
while profile.out is a prerequisite of its rule. -/
theorem C9_profile_out (pySrc : List Path) (ok : Path → Bool) :
    (∀ st : St,
        (runRecipe ok (profileRule pySrc).recipe st).fs ["profile.out"]
          = st.fs ["profile.out"])
    ∧ (∀ fs : FS, fs ["profile.out"] = none →
        wantsRun fs (profileRule pySrc) = true)
    ∧ Cmd.gen ["html", "api"] apiHtmlArgs ∈ (apiHtmlRule pySrc).recipe
    ∧ hasOptPair "--pstat" "profile.out" apiHtmlArgs = true
    ∧ ["profile.out"] ∈ (apiHtmlRule pySrc).prereqs := by
  refine ⟨?_, ?_, ?_, by decide, ?_⟩
  · intro st
    obtain ⟨sfs, sc, str, sfl⟩ := st
    cases sfl
    · show cmdFS (Cmd.rmTree ["profile.tmp"]) (sc + 1)
        (FS.set sfs ["profile.tmp"] sc) ["profile.out"] = sfs ["profile.out"]
      simp only [cmdFS, FS.set]
      rw [if_neg (by decide), if_neg (by decide)]
    · rfl
  · intro fs h
    simp [wantsRun, profileRule, h]
  · exact List.mem_cons.mpr (Or.inr (List.mem_cons.mpr (Or.inr
      (List.mem_cons.mpr (Or.inl rfl)))))
  · exact List.mem_append.mpr (Or.inr (by simp))

/-- Witness for C9: from the empty filesystem profile.out is missing,
the rule wants to run, and running the recipe on the sample filesystem
leaves the profile.out entry exactly as it was. -/
theorem C9_profile_out_witness :
    emptyFS ["profile.out"] = none
    ∧ wantsRun emptyFS (profileRule samplePySrc) = true
    ∧ (runRecipe okAll (profileRule samplePySrc).recipe
        ⟨exFS5, 20, [], false⟩).fs ["profile.out"] = exFS5 ["profile.out"] :=
  ⟨rfl, (C9_profile_out samplePySrc okAll).2.1 emptyFS rfl,
   (C9_profile_out samplePySrc okAll).1 ⟨exFS5, 20, [], false⟩⟩

/-- Helper: one unfolding step of the build evaluator. -/
lemma buildAux_succ (ok : Path → Bool) (rules : List Rule) (fuel : Nat)
    (t : Path) (st : St) :
    buildAux ok rules (fuel + 1) t st =
      match findRule rules t with
      | none => (st, false)
      | some r =>
        let built := r.prereqs.foldl
          (fun acc p => (buildAux ok rules fuel p acc).1) st
        if wantsRun built.fs r then
          (runRecipe ok r.recipe built, true)
        else (built, false) := rfl

/-- Helper: prerequisites that are all up to date leave the build fold
at its start state. -/
lemma foldl_build_id (ok : Path → Bool) (rules : List Rule) (fuel : Nat) :
    ∀ (ps : List Path) (st : St),
      (∀ p ∈ ps, buildAux ok rules fuel p st = (st, false)) →
      ps.foldl (fun acc p => (buildAux ok rules fuel p acc).1) st = st := by
  intro ps
  induction ps with
  | nil => intro st _; rfl
  | cons p rest ih =>
    intro st h
    rw [List.foldl_cons]
    have hstep : (buildAux ok rules fuel p st).1 = st := by
      rw [h p (by simp)]
    rw [hstep]
    exact ih st (fun q hq => h q (by simp [hq]))

/-- Helper: the rule found for a target has that target. -/
lemma findRule_target (rules : List Rule) (t : Path) (r : Rule)
    (h : findRule rules t = some r) : r.target = t := by
  have h2 : List.find? (fun q => decide (q.target = t)) rules = some r := h
  have h3 := List.find?_some h2
  exact of_decide_eq_true h3

/-- Helper: building a recursively fresh target runs nothing and
changes nothing. -/
lemma fresh_build (ok : Path → Bool) (rules : List Rule) :
    ∀ (fuel : Nat) (t : Path) (st : St),
      fresh rules fuel st.fs t = true →
      buildAux ok rules fuel t st = (st, false) := by
  intro fuel
  induction fuel with
  | zero => intro t st h; simp [fresh] at h
  | succ fuel ih =>
    intro t st h
    rw [buildAux_succ]
    cases hfr : findRule rules t with
    | none => simp only [hfr]
    | some r =>
      simp only [fresh, hfr] at h
      rw [Bool.and_eq_true, Bool.and_eq_true] at h
      obtain ⟨⟨h1, h2⟩, h3⟩ := h
      have hall := List.all_eq_true.mp h3
      have hfold := foldl_build_id ok rules fuel r.prereqs st
        (fun p hp => ih p st (by
          have hpair := hall p hp
          rw [Bool.and_eq_true] at hpair
          exact hpair.1))
      simp only [hfr, hfold]
      have htarget : r.target = t := findRule_target rules t r hfr
      have hph : r.phony = false := by
        revert h1; cases r.phony <;> simp
      have hw : wantsRun st.fs r = false := by
        simp only [wantsRun, htarget, hph]
        rcases hfs : st.fs t with _ | v
        · rw [hfs] at h2; cases h2
        · simp only [Option.isNone_some, Bool.false_or, Bool.or_false]
          cases hany : r.prereqs.any (fun p => outdatedBy st.fs t p)
          · rfl
          · obtain ⟨p, hp, hout⟩ := List.any_eq_true.mp hany
            have hno := hall p hp
            rw [Bool.and_eq_true] at hno
            have hno2 := hno.2
            rw [hout] at hno2
            cases hno2
      rw [if_neg (by rw [hw]; exact Bool.false_ne_true)]

/-- Helper: a phony target with an empty recipe and a single fresh
prerequisite runs nothing. -/
lemma phony_build (ok : Path → Bool) (rules : List Rule) (fuel : Nat)
    (t s : Path) (st : St) (r : Rule)
    (hfr : findRule rules t = some r) (hph : r.phony = true)
    (hrec : r.recipe = []) (hpre : r.prereqs = [s])
    (hfresh : fresh rules fuel st.fs s = true) :
    buildAux ok rules (fuel + 1) t st = (st, true) := by
  rw [buildAux_succ]
  simp only [hfr, hpre, List.foldl_cons, List.foldl_nil]
  rw [fresh_build ok rules fuel s st hfresh]
  rw [if_pos (by simp [wantsRun, hph])]
  simp [hrec, runRecipe]


/-- C5 (amended): for a sentinel-guarded phony target, when the
sentinel is recursively up to date (it exists, every prerequisite of
its rule exists, is older, and is in turn recursively up to date),
invoking the target runs no recipe command and leaves the state,
filesystem included, unchanged.  This covers api-html guarded by
.api-html.up2date and refdocs guarded by .refdocs.up2date; for
api-html the condition includes that the prerequisite profile.out is
itself up to date, which a build cannot establish because its recipe
never creates profile.out. -/
theorem C5_amended (pySrc docs doctests examplesSrc slFiles : List Path)
    (ok : Path → Bool) (fs : FS) (c : Nat) (tr : List String)
    (h1 : fresh (rulesMain pySrc docs doctests examplesSrc slFiles) 5 fs
            [".api-html.up2date"] = true)
    (h2 : fresh (rulesRefdocs pySrc) 5 fs [".refdocs.up2date"] = true) :
    buildAux ok (rulesMain pySrc docs doctests examplesSrc slFiles) 6
        ["api-html"] ⟨fs, c, tr, false⟩ = (⟨fs, c, tr, false⟩, true)
    ∧ buildAux ok (rulesRefdocs pySrc) 6 ["refdocs"] ⟨fs, c, tr, false⟩
        = (⟨fs, c, tr, false⟩, true) := by
  constructor
  · exact phony_build ok _ 5 ["api-html"] [".api-html.up2date"]
      ⟨fs, c, tr, false⟩
      { target := ["api-html"], prereqs := [[".api-html.up2date"]],
        recipe := [], phony := true }
      rfl rfl rfl rfl h1
  · exact phony_build ok _ 5 ["refdocs"] [".refdocs.up2date"]
      ⟨fs, c, tr, false⟩
      { target := ["refdocs"], prereqs := [[".refdocs.up2date"]],
        recipe := [], phony := true }
      rfl rfl rfl rfl h2

/-- Witness for C5 (amended): a concrete filesystem whose sentinels are
recursively fresh, on which invoking api-html changes nothing. -/
theorem C5_amended_witness :
    fresh rulesEx 5 exFS5w [".api-html.up2date"] = true
    ∧ fresh (rulesRefdocs samplePySrc) 5 exFS5w [".refdocs.up2date"] = true
    ∧ buildAux okAll rulesEx 6 ["api-html"] ⟨exFS5w, 10, [], false⟩
        = (⟨exFS5w, 10, [], false⟩, true) :=
  ⟨by decide, by decide,
   (C5_amended samplePySrc sampleDocs sampleDoctests sampleExamples sampleSl
      okAll exFS5w 10 [] (by decide) (by decide)).1⟩

/-- Helper: a list is a prefix of itself followed by anything. -/
lemma isPrefixOf_append_self (p b : Line) : p.isPrefixOf (p ++ b) = true := by
  induction p with
  | nil => simp
  | cons c t ih => simp [List.isPrefixOf_cons₂, ih]

/-- Helper: when the pattern starts the line, splitFirst splits off an
empty front. -/
lemma splitFirst_of_isPrefixOf (p s : Line) (h : p.isPrefixOf s = true) :
    splitFirst p s = some ([], s.drop p.length) := by
  cases s with
  | nil =>
    cases p with
    | nil => simp [splitFirst]
    | cons c t => simp [List.isPrefixOf] at h
  | cons c t => simp [splitFirst, h]

/-- Helper: at the first occurrence of the pattern, splitFirst returns
exactly the text before and after it. -/
lemma splitFirst_first_occ (p : Line) :
    ∀ (a b : Line),
      (∀ i, i < a.length → p.isPrefixOf ((a ++ p ++ b).drop i) = false) →
      splitFirst p (a ++ p ++ b) = some (a, b) := by
  intro a
  induction a with
  | nil =>
    intro b _
    rw [List.nil_append]
    rw [splitFirst_of_isPrefixOf p _ (isPrefixOf_append_self p b)]
    rw [List.drop_left]
  | cons c a ih =>
    intro b h
    have h0 : p.isPrefixOf (c :: (a ++ p ++ b)) = false := by
      have := h 0 (by simp)
      simpa using this
    rw [show ((c :: a) ++ p ++ b) = c :: (a ++ p ++ b) from rfl]
    rw [splitFirst]
    rw [if_neg (by rw [h0]; exact Bool.false_ne_true)]
    rw [ih b (fun i hi => by
      have := h (i + 1) (by simpa using Nat.succ_lt_succ hi)
      simpa using this)]
    rfl

/-- C7 (amended): the four named transforms act per line on the first
occurrence of their pattern: the stylesheet link is inserted
immediately before the closing HEAD tag, the heading is retitled, the
text of a Content-type: line is blanked from the marker onward (the
line itself remains, possibly empty, rather than being deleted), and
the epydocgui cgi-bin cross-reference is rewritten to the local file;
and the composed pipeline applies all four on a sample man2html
page. -/
theorem C7_amended :
    (∀ a b : Line,
       (∀ i, i < a.length →
          occAt (lit "</HEAD>") (a ++ lit "</HEAD>" ++ b) i = false) →
       manSed1 [a ++ lit "</HEAD>" ++ b]
         = [a ++ cssLink ++ lit "</HEAD>" ++ b])
    ∧ (∀ a b : Line,
       (∀ i, i < a.length →
          occAt (lit "<H1>EPYDOC</H1>")
            (a ++ lit "<H1>EPYDOC</H1>" ++ b) i = false) →
       manSed2 [a ++ lit "<H1>EPYDOC</H1>" ++ b]
         = [a ++ lit "<H1>epydoc (1)</H1>" ++ b])
    ∧ (∀ a b : Line,
       (∀ i, i < a.length →
          occAt (lit "Content-type:") (a ++ lit "Content-type:" ++ b) i
            = false) →
       manSed4 [a ++ lit "Content-type:" ++ b] = [a])
    ∧ (∀ a b : Line,
       (∀ i, i < a.length →
          occAt (lit "\"/cgi-bin/man2html?epydocgui+1\"")
            (a ++ lit "\"/cgi-bin/man2html?epydocgui+1\"" ++ b) i = false) →
       manSed10 [a ++ lit "\"/cgi-bin/man2html?epydocgui+1\"" ++ b]
         = [a ++ lit "\"epydocgui-man.html\"" ++ b])
    ∧ manPipeline samplePage = samplePageOut := by
  refine ⟨?_, ?_, ?_, ?_, by decide⟩
  · intro a b h
    simp only [manSed1, List.map_cons, List.map_nil, sedSub]
    rw [splitFirst_first_occ _ a b (fun i hi => h i hi)]
    simp [List.append_assoc]
  · intro a b h
    simp only [manSed2, List.map_cons, List.map_nil, sedSub]
    rw [splitFirst_first_occ _ a b (fun i hi => h i hi)]
  · intro a b h
    simp only [manSed4, List.map_cons, List.map_nil, sedCut]
    rw [splitFirst_first_occ _ a b (fun i hi => h i hi)]
  · intro a b h
    simp only [manSed10, List.map_cons, List.map_nil, sedSub]
    rw [splitFirst_first_occ _ a b (fun i hi => h i hi)]

/-- Witness for C7 (amended), on concrete lines around each pattern. -/
theorem C7_amended_witness :
    ((∀ i, i < (lit "<HTML><HEAD>").length →
        occAt (lit "</HEAD>")
          (lit "<HTML><HEAD>" ++ lit "</HEAD>" ++ lit "<BODY>") i = false)
      ∧ manSed1 [lit "<HTML><HEAD>" ++ lit "</HEAD>" ++ lit "<BODY>"]
          = [lit "<HTML><HEAD>" ++ cssLink ++ lit "</HEAD>" ++ lit "<BODY>"])
    ∧ manSed2 [lit "x" ++ lit "<H1>EPYDOC</H1>" ++ lit "y"]
        = [lit "x" ++ lit "<H1>epydoc (1)</H1>" ++ lit "y"]
    ∧ manSed4 [lit "" ++ lit "Content-type:" ++ lit " text/html"] = [lit ""]
    ∧ manSed10 [lit "<A HREF="
          ++ lit "\"/cgi-bin/man2html?epydocgui+1\"" ++ lit ">"]
        = [lit "<A HREF=" ++ lit "\"epydocgui-man.html\"" ++ lit ">"] :=
  ⟨⟨by decide,
    C7_amended.1 (lit "<HTML><HEAD>") (lit "<BODY>") (by decide)⟩,
   C7_amended.2.1 (lit "x") (lit "y") (by decide),
   C7_amended.2.2.1 (lit "") (lit " text/html") (by decide),
   C7_amended.2.2.2.1 (lit "<A HREF=") (lit ">") (by decide)⟩

/-- C7 counterexample: the pipeline does not delete a Content-type:
line; the substitution s/Content-type:.*// empties it, so a three-line
page with a Content-type: line comes out as three lines with an empty
line in the middle, not as the two remaining lines. -/
theorem C7_counterexample :
    manPipeline ctDemo = [lit "<HTML>", [], lit "</HTML>"]
    ∧ manPipeline ctDemo ≠ [lit "<HTML>", lit "</HTML>"]
    ∧ (manPipeline ctDemo).length = ctDemo.length := by
  decide

/-- C10 (amended): the local target empties the local web root of its
non-hidden entries and repopulates it from the webpage build: after the
recipe, paths outside /var/www/epydoc are untouched (the webpage source
tree in particular is unchanged); a non-hidden entry below
/var/www/epydoc exists afterwards exactly when the webpage build holds
the matching file; and hidden entries below /var/www/epydoc are left as
they were, because the shell glob star in rm -rf /var/www/epydoc/*
does not match dotfiles. -/
theorem C10_amended (ok : Path → Bool) (fs : FS) (c : Nat) :
    (∀ q : Path,
        (runRecipe ok localRule.recipe ⟨fs, c, [], false⟩).fs q ≠ fs q →
        ["var", "www", "epydoc"].isPrefixOf q = true)
    ∧ (∀ (x : String) (r : Path), hiddenName x = false →
        (runRecipe ok localRule.recipe ⟨fs, c, [], false⟩).fs
            ("var" :: "www" :: "epydoc" :: x :: r) ≠ none →
        (fs ("webpage" :: x :: r)).isSome = true)
    ∧ (∀ (x : String) (r : Path), hiddenName x = false →
        (fs ("webpage" :: x :: r)).isSome = true →
        (runRecipe ok localRule.recipe ⟨fs, c, [], false⟩).fs
            ("var" :: "www" :: "epydoc" :: x :: r) ≠ none)
    ∧ (∀ (x : String) (r : Path), hiddenName x = true →
        (runRecipe ok localRule.recipe ⟨fs, c, [], false⟩).fs
            ("var" :: "www" :: "epydoc" :: x :: r)
          = fs ("var" :: "www" :: "epydoc" :: x :: r))
    ∧ (∀ r : Path,
        (runRecipe ok localRule.recipe ⟨fs, c, [], false⟩).fs
            ("webpage" :: r) = fs ("webpage" :: r)) := by
  have hrun : (runRecipe ok localRule.recipe ⟨fs, c, [], false⟩).fs
      = cmdFS (Cmd.copyChildren ["webpage"] ["var", "www", "epydoc"]) (c + 1)
          (cmdFS (Cmd.rmChildren ["var", "www", "epydoc"]) c fs) := rfl
  have hchild : ∀ (x : String) (r : Path),
      childOf ["var", "www", "epydoc"] ("var" :: "www" :: "epydoc" :: x :: r)
        = some (x, r) := by
    intro x r
    simp [childOf, List.isPrefixOf_cons₂]
  have hnotvwe : ∀ r : Path,
      childOf ["var", "www", "epydoc"] ("webpage" :: r) = none := by
    intro r
    simp [childOf, List.isPrefixOf_cons₂]
  refine ⟨?_, ?_, ?_, ?_, ?_⟩
  · intro q hne
    rw [hrun] at hne
    by_contra hpre
    have hb : ["var", "www", "epydoc"].isPrefixOf q = false := by
      revert hpre; cases ["var", "www", "epydoc"].isPrefixOf q <;> simp
    have hnochild : childOf ["var", "www", "epydoc"] q = none := by
      simp [childOf, hb]
    simp [cmdFS, hnochild] at hne
  · intro x r hx hne
    rw [hrun] at hne
    simp only [cmdFS, List.cons_append, List.nil_append, hchild x r, hx,
      hnotvwe] at hne
    rcases hsrc : (fs ("webpage" :: x :: r)).isSome with _ | _
    · rw [hsrc] at hne
      simp at hne
    · rfl
  · intro x r hx hsrc
    rw [hrun]
    simp only [cmdFS, List.cons_append, List.nil_append, hchild x r, hx,
      hnotvwe, hsrc]
    simp
  · intro x r hx
    rw [hrun]
    simp only [cmdFS, List.cons_append, List.nil_append, hchild x r, hx,
      hnotvwe]
    simp
  · intro r
    rw [hrun]
    simp only [cmdFS, hnotvwe]

/-- Witness for C10 (amended): the frame and copy facts at concrete
paths of the sample local web root. -/
theorem C10_amended_witness :
    (hiddenName "index.html" = false
      ∧ exFS10 ["webpage", "index.html"] = some 2
      ∧ (runRecipe okAll localRule.recipe ⟨exFS10, 10, [], false⟩).fs
          ("var" :: "www" :: "epydoc" :: "index.html" :: []) ≠ none)
    ∧ (hiddenName ".htaccess" = true
      ∧ (runRecipe okAll localRule.recipe ⟨exFS10, 10, [], false⟩).fs
          ("var" :: "www" :: "epydoc" :: ".htaccess" :: [])
        = exFS10 ("var" :: "www" :: "epydoc" :: ".htaccess" :: []))
    ∧ (runRecipe okAll localRule.recipe ⟨exFS10, 10, [], false⟩).fs
        ("webpage" :: ["index.html"]) = exFS10 ("webpage" :: ["index.html"]) :=
  ⟨⟨by decide, by decide,
    (C10_amended okAll exFS10 10).2.2.1 "index.html" [] (by decide)
      (by decide)⟩,
   ⟨by decide, (C10_amended okAll exFS10 10).2.2.2.1 ".htaccess" []
      (by decide)⟩,
   (C10_amended okAll exFS10 10).2.2.2.2 ["index.html"]⟩

/-- Helper: touch leaves other paths alone. -/
lemma touch_keep (p : Path) (t : Nat) (fs : FS) (q : Path) (h : q ≠ p) :
    cmdFS (.touch p) t fs q = fs q := by
  simp [cmdFS, FS.set, h]

/-- Helper: mkdir leaves other paths alone. -/
lemma mkdirp_keep (p : Path) (t : Nat) (fs : FS) (q : Path) (h : q ≠ p) :
    cmdFS (.mkdirp p) t fs q = fs q := by
  simp [cmdFS, FS.set, h]

/-- Helper: removing a tree leaves paths outside it alone. -/
lemma rmTree_keep (p : Path) (t : Nat) (fs : FS) (q : Path)
    (h : p.isPrefixOf q = false) :
    cmdFS (.rmTree p) t fs q = fs q := by
  simp [cmdFS, h]

/-- Helper: a tree copy leaves paths outside the destination alone. -/
lemma copyTree_keep (s d : Path) (t : Nat) (fs : FS) (q : Path)
    (h : d.isPrefixOf q = false) :
    cmdFS (.copyTree s d) t fs q = fs q := by
  simp [cmdFS, h]

/-- Helper: a children copy leaves paths outside the destination
alone. -/
lemma copyChildren_keep (s d : Path) (t : Nat) (fs : FS) (q : Path)
    (h : childOf d q = none) :
    cmdFS (.copyChildren s d) t fs q = fs q := by
  simp [cmdFS, h]

/-- Helper: a file copy leaves other paths alone. -/
lemma copyFile_keep (s d : Path) (t : Nat) (fs : FS) (q : Path)
    (h : q ≠ d) :
    cmdFS (.copyFile s d) t fs q = fs q := by
  simp only [cmdFS]
  split
  · simp [FS.set, h]
  · rfl

/-- Helper: the child decomposition below a directory. -/
lemma childOf_append (d : Path) (x : String) (r : Path) :
    childOf d (d ++ x :: r) = some (x, r) := by
  simp [childOf, isPrefixOf_append_self, List.drop_left]

/-- Helper: a tree copy writes each file present in the source. -/
lemma copyTree_write (s d : Path) (t : Nat) (fs : FS) (r : Path)
    (hs : (fs (s ++ r)).isSome = true) :
    cmdFS (.copyTree s d) t fs (d ++ r) = some t := by
  simp [cmdFS, isPrefixOf_append_self, List.drop_left, hs]

/-- Helper: a children copy writes each non-hidden child present in the
source. -/
lemma copyChildren_write (s d : Path) (t : Nat) (fs : FS) (x : String)
    (r : Path) (hx : hiddenName x = false)
    (hs : (fs (s ++ x :: r)).isSome = true) :
    cmdFS (.copyChildren s d) t fs (d ++ x :: r) = some t := by
  simp [cmdFS, childOf_append, hx, hs]

/-- Helper: apart from the two removal commands, a command never makes
an existing entry disappear. -/
lemma cmdFS_isSome_mono (c : Cmd) (t : Nat) (fs : FS) (q : Path)
    (hntr : ∀ p, c ≠ .rmTree p) (hnrc : ∀ p, c ≠ .rmChildren p)
    (h : (fs q).isSome = true) : (cmdFS c t fs q).isSome = true := by
  cases c with
  | touch p => by_cases hq : q = p <;> simp [cmdFS, FS.set, hq, h]
  | rmTree p => exact absurd rfl (hntr p)
  | rmChildren p => exact absurd rfl (hnrc p)
  | mkdirp p => by_cases hq : q = p <;> simp [cmdFS, FS.set, hq, h]
  | copyTree s d =>
    by_cases hc : (d.isPrefixOf q && (fs (s ++ q.drop d.length)).isSome)
        = true <;> simp [cmdFS, hc, h]
  | copyChildren s d =>
    rcases hm : childOf d q with _ | ⟨c0, r⟩
    · simpa [cmdFS, hm] using h
    · by_cases hc : (!hiddenName c0 && (fs (s ++ c0 :: r)).isSome) = true <;>
        simp [cmdFS, hm, hc, h]
  | copyFile s d =>
    by_cases hs : (fs s).isSome = true
    · by_cases hq : q = d <;> simp [cmdFS, FS.set, hs, hq, h]
    · simp [cmdFS, hs, h]
  | gen dir args => by_cases hq : q = dir <;> simp [cmdFS, FS.set, hq, h]
  | genFile p args => by_cases hq : q = p <;> simp [cmdFS, FS.set, hq, h]
  | doctestLoop files o => simpa [cmdFS] using h
  | external s => simpa [cmdFS] using h

/-- Helper: a tree copy at a destination path splits into the source
check. -/
lemma copyTree_at (s d : Path) (t : Nat) (fs : FS) (r : Path) :
    cmdFS (.copyTree s d) t fs (d ++ r)
      = if (fs (s ++ r)).isSome = true then some t else fs (d ++ r) := by
  simp [cmdFS, isPrefixOf_append_self, List.drop_left]

/-- C6: running the .webpage.up2date recipe touches only the webpage
tree and the sentinel (every input tree below html, latex and doc is
unchanged); the sentinel is stamped; the webpage tree is populated from
the docs, the API HTML tree, the examples tree, the doctest HTML tree
and the API PDF; and an entry below webpage for which no current source
exists does not survive the rebuild. -/
theorem C6_webpage_rebuild (ok : Path → Bool) (docs : List Path) (fs : FS)
    (c : Nat) :
    (∀ q : Path, webpageRun ok docs fs c q ≠ fs q →
        q = [".webpage.up2date"] ∨ ["webpage"].isPrefixOf q = true)
    ∧ (∀ r : Path,
        webpageRun ok docs fs c ("html" :: r) = fs ("html" :: r)
        ∧ webpageRun ok docs fs c ("latex" :: r) = fs ("latex" :: r)
        ∧ webpageRun ok docs fs c ("doc" :: r) = fs ("doc" :: r))
    ∧ webpageRun ok docs fs c [".webpage.up2date"] = some (c + 7)
    ∧ (∀ r : Path, (fs (["html", "api"] ++ r)).isSome = true →
        (webpageRun ok docs fs c (["webpage", "api"] ++ r)).isSome = true)
    ∧ (∀ r : Path, (fs (["html", "examples"] ++ r)).isSome = true →
        (webpageRun ok docs fs c (["webpage", "examples"] ++ r)).isSome = true)
    ∧ (∀ (x : String) (r : Path), hiddenName x = false →
        (fs (["html", "doctest"] ++ x :: r)).isSome = true →
        (webpageRun ok docs fs c (["webpage", "doctest"] ++ x :: r)).isSome
          = true)
    ∧ ((fs ["latex", "api", "api.pdf"]).isSome = true →
        (webpageRun ok docs fs c ["webpage", "epydoc.pdf"]).isSome = true)
    ∧ (∀ (x : String) (r : Path), hiddenName x = false →
        (fs ("doc" :: x :: r)).isSome = true →
        (webpageRun ok docs fs c ("webpage" :: x :: r)).isSome = true)
    ∧ (∀ (x : String) (r : Path),
        (fs ("doc" :: x :: r)).isSome = false →
        (x = "api" → (fs (["html", "api"] ++ r)).isSome = false) →
        (x = "examples" → (fs (["html", "examples"] ++ r)).isSome = false) →
        (x = "doctest" → (fs (["html", "doctest"] ++ r)).isSome = false) →
        (x = "epydoc.pdf" → r = [] →
          (fs ["latex", "api", "api.pdf"]).isSome = false) →
        webpageRun ok docs fs c ("webpage" :: x :: r) = none) := by
  have hrun : webpageRun ok docs fs c
      = cmdFS (.touch [".webpage.up2date"]) (c + 7)
          (cmdFS (.copyFile ["latex", "api", "api.pdf"]
              ["webpage", "epydoc.pdf"]) (c + 6)
            (cmdFS (.copyChildren ["html", "doctest"]
                ["webpage", "doctest"]) (c + 5)
              (cmdFS (.copyTree ["html", "examples"]
                  ["webpage", "examples"]) (c + 4)
                (cmdFS (.copyTree ["html", "api"] ["webpage", "api"]) (c + 3)
                  (cmdFS (.copyChildren ["doc"] ["webpage"]) (c + 2)
                    (cmdFS (.mkdirp ["webpage"]) (c + 1)
                      (cmdFS (.rmTree ["webpage"]) c fs))))))) := rfl
  set F1 := cmdFS (Cmd.rmTree ["webpage"]) c fs with hF1
  set F2 := cmdFS (Cmd.mkdirp ["webpage"]) (c + 1) F1 with hF2
  set F3 := cmdFS (Cmd.copyChildren ["doc"] ["webpage"]) (c + 2) F2 with hF3
  set F4 := cmdFS (Cmd.copyTree ["html", "api"] ["webpage", "api"]) (c + 3)
    F3 with hF4
  set F5 := cmdFS (Cmd.copyTree ["html", "examples"] ["webpage", "examples"])
    (c + 4) F4 with hF5
  set F6 := cmdFS (Cmd.copyChildren ["html", "doctest"]
    ["webpage", "doctest"]) (c + 5) F5 with hF6
  set F7 := cmdFS (Cmd.copyFile ["latex", "api", "api.pdf"]
    ["webpage", "epydoc.pdf"]) (c + 6) F6 with hF7
  set F8 := cmdFS (Cmd.touch [".webpage.up2date"]) (c + 7) F7 with hF8
  have kF2doc : ∀ t : Path, F2 ("doc" :: t) = fs ("doc" :: t) := by
    intro t
    rw [hF2, mkdirp_keep _ _ _ _ (by simp), hF1,
      rmTree_keep _ _ _ _ (by simp [List.isPrefixOf_cons₂])]
  have kF3html : ∀ t : Path, F3 ("html" :: t) = fs ("html" :: t) := by
    intro t
    rw [hF3, copyChildren_keep _ _ _ _ _
      (by simp [childOf, List.isPrefixOf_cons₂])]
    rw [hF2, mkdirp_keep _ _ _ _ (by simp), hF1,
      rmTree_keep _ _ _ _ (by simp [List.isPrefixOf_cons₂])]
  have kF4html : ∀ t : Path, F4 ("html" :: t) = fs ("html" :: t) := by
    intro t
    rw [hF4, copyTree_keep _ _ _ _ _ (by simp [List.isPrefixOf_cons₂])]
    exact kF3html t
  have kF5html : ∀ t : Path, F5 ("html" :: t) = fs ("html" :: t) := by
    intro t
    rw [hF5, copyTree_keep _ _ _ _ _ (by simp [List.isPrefixOf_cons₂])]
    exact kF4html t
  have kF6latex : ∀ t : Path, F6 ("latex" :: t) = fs ("latex" :: t) := by
    intro t
    rw [hF6, copyChildren_keep _ _ _ _ _
      (by simp [childOf, List.isPrefixOf_cons₂])]
    rw [hF5, copyTree_keep _ _ _ _ _ (by simp [List.isPrefixOf_cons₂])]
    rw [hF4, copyTree_keep _ _ _ _ _ (by simp [List.isPrefixOf_cons₂])]
    rw [hF3, copyChildren_keep _ _ _ _ _
      (by simp [childOf, List.isPrefixOf_cons₂])]
    rw [hF2, mkdirp_keep _ _ _ _ (by simp), hF1,
      rmTree_keep _ _ _ _ (by simp [List.isPrefixOf_cons₂])]
  have hframe : ∀ q : Path, q ≠ [".webpage.up2date"] →
      ["webpage"].isPrefixOf q = false → F8 q = fs q := by
    intro q hq1 hq2
    rcases q with _ | ⟨y, t⟩
    · rw [hF8, touch_keep _ _ _ _ (by simp)]
      rw [hF7, copyFile_keep _ _ _ _ _ (by simp)]
      rw [hF6, copyChildren_keep _ _ _ _ _ (by simp [childOf])]
      rw [hF5, copyTree_keep _ _ _ _ _ (by simp)]
      rw [hF4, copyTree_keep _ _ _ _ _ (by simp)]
      rw [hF3, copyChildren_keep _ _ _ _ _ (by simp [childOf])]
      rw [hF2, mkdirp_keep _ _ _ _ (by simp)]
      rw [hF1, rmTree_keep _ _ _ _ (by simp)]
    · have hy : ("webpage" == y) = false := by
        simpa [List.isPrefixOf_cons₂] using hq2
      have hyne : y ≠ "webpage" := by
        intro h; rw [h] at hy; simp at hy
      rw [hF8, touch_keep _ _ _ _ hq1]
      rw [hF7, copyFile_keep _ _ _ _ _
        (by intro h; injection h with h1 _; exact hyne h1)]
      rw [hF6, copyChildren_keep _ _ _ _ _
        (by simp [childOf, List.isPrefixOf_cons₂, hy])]
      rw [hF5, copyTree_keep _ _ _ _ _ (by simp [List.isPrefixOf_cons₂, hy])]
      rw [hF4, copyTree_keep _ _ _ _ _ (by simp [List.isPrefixOf_cons₂, hy])]
      rw [hF3, copyChildren_keep _ _ _ _ _
        (by simp [childOf, List.isPrefixOf_cons₂, hy])]
      rw [hF2, mkdirp_keep _ _ _ _
        (by intro h; injection h with h1 _; exact hyne h1)]
      rw [hF1, rmTree_keep _ _ _ _ (by simp [List.isPrefixOf_cons₂, hy])]
  refine ⟨?_, ?_, ?_, ?_, ?_, ?_, ?_, ?_, ?_⟩
  · intro q hne
    rw [hrun] at hne
    by_cases h1 : q = [".webpage.up2date"]
    · exact Or.inl h1
    · right
      by_cases h2 : ["webpage"].isPrefixOf q = true
      · exact h2
      · have hb : ["webpage"].isPrefixOf q = false := by
          revert h2; cases ["webpage"].isPrefixOf q <;> simp
        exact absurd (hframe q h1 hb) hne
  · intro r
    refine ⟨?_, ?_, ?_⟩ <;> rw [hrun]
    · exact hframe ("html" :: r)
        (by intro h; injection h with h1 h2; exact absurd h1 (by decide))
        (by simp [List.isPrefixOf_cons₂])
    · exact hframe ("latex" :: r)
        (by intro h; injection h with h1 h2; exact absurd h1 (by decide))
        (by simp [List.isPrefixOf_cons₂])
    · exact hframe ("doc" :: r)
        (by intro h; injection h with h1 h2; exact absurd h1 (by decide))
        (by simp [List.isPrefixOf_cons₂])
  · rw [hrun, hF8]
    simp [cmdFS, FS.set]
  · intro r hs
    rw [hrun, hF8]
    refine cmdFS_isSome_mono _ _ _ _ (fun p h => Cmd.noConfusion h)
      (fun p h => Cmd.noConfusion h) ?_
    rw [hF7]
    refine cmdFS_isSome_mono _ _ _ _ (fun p h => Cmd.noConfusion h)
      (fun p h => Cmd.noConfusion h) ?_
    rw [hF6]
    refine cmdFS_isSome_mono _ _ _ _ (fun p h => Cmd.noConfusion h)
      (fun p h => Cmd.noConfusion h) ?_
    rw [hF5]
    refine cmdFS_isSome_mono _ _ _ _ (fun p h => Cmd.noConfusion h)
      (fun p h => Cmd.noConfusion h) ?_
    rw [hF4, copyTree_write ["html", "api"] ["webpage", "api"] (c + 3) F3 r
      (by
        show (F3 (["html", "api"] ++ r)).isSome = true
        simp only [List.cons_append, List.nil_append]
        rw [kF3html ("api" :: r)]
        simpa using hs)]
    rfl
  · intro r hs
    rw [hrun, hF8]
    refine cmdFS_isSome_mono _ _ _ _ (fun p h => Cmd.noConfusion h)
      (fun p h => Cmd.noConfusion h) ?_
    rw [hF7]
    refine cmdFS_isSome_mono _ _ _ _ (fun p h => Cmd.noConfusion h)
      (fun p h => Cmd.noConfusion h) ?_
    rw [hF6]
    refine cmdFS_isSome_mono _ _ _ _ (fun p h => Cmd.noConfusion h)
      (fun p h => Cmd.noConfusion h) ?_
    rw [hF5, copyTree_write ["html", "examples"] ["webpage", "examples"]
      (c + 4) F4 r
      (by
        show (F4 (["html", "examples"] ++ r)).isSome = true
        simp only [List.cons_append, List.nil_append]
        rw [kF4html ("examples" :: r)]
        simpa using hs)]
    rfl
  · intro x r hx hs
    rw [hrun, hF8]
    refine cmdFS_isSome_mono _ _ _ _ (fun p h => Cmd.noConfusion h)
      (fun p h => Cmd.noConfusion h) ?_
    rw [hF7]
    refine cmdFS_isSome_mono _ _ _ _ (fun p h => Cmd.noConfusion h)
      (fun p h => Cmd.noConfusion h) ?_
    rw [hF6, copyChildren_write ["html", "doctest"] ["webpage", "doctest"]
      (c + 5) F5 x r hx
      (by
        show (F5 (["html", "doctest"] ++ x :: r)).isSome = true
        simp only [List.cons_append, List.nil_append]
        rw [kF5html ("doctest" :: x :: r)]
        simpa using hs)]
    rfl
  · intro hs
    rw [hrun, hF8]
    refine cmdFS_isSome_mono _ _ _ _ (fun p h => Cmd.noConfusion h)
      (fun p h => Cmd.noConfusion h) ?_
    rw [hF7]
    have hsrc : (F6 ["latex", "api", "api.pdf"]).isSome = true := by
      rw [kF6latex ["api", "api.pdf"]]
      exact hs
    simp [cmdFS, hsrc, FS.set]
  · intro x r hx hs
    rw [hrun, hF8]
    refine cmdFS_isSome_mono _ _ _ _ (fun p h => Cmd.noConfusion h)
      (fun p h => Cmd.noConfusion h) ?_
    rw [hF7]
    refine cmdFS_isSome_mono _ _ _ _ (fun p h => Cmd.noConfusion h)
      (fun p h => Cmd.noConfusion h) ?_
    rw [hF6]
    refine cmdFS_isSome_mono _ _ _ _ (fun p h => Cmd.noConfusion h)
      (fun p h => Cmd.noConfusion h) ?_
    rw [hF5]
    refine cmdFS_isSome_mono _ _ _ _ (fun p h => Cmd.noConfusion h)
      (fun p h => Cmd.noConfusion h) ?_
    rw [hF4]
    refine cmdFS_isSome_mono _ _ _ _ (fun p h => Cmd.noConfusion h)
      (fun p h => Cmd.noConfusion h) ?_
    show (F3 (["webpage"] ++ x :: r)).isSome = true
    rw [hF3, copyChildren_write ["doc"] ["webpage"] (c + 2) F2 x r hx
      (by
        show (F2 (["doc"] ++ x :: r)).isSome = true
        simp only [List.cons_append, List.nil_append]
        rw [kF2doc (x :: r)]
        exact hs)]
    rfl
  · intro x r hdoc hapi hex hdt hpdf
    rw [hrun]
    have e1 : F1 ("webpage" :: x :: r) = none := by
      rw [hF1]; simp [cmdFS, List.isPrefixOf_cons₂]
    have e2 : F2 ("webpage" :: x :: r) = none := by
      rw [hF2, mkdirp_keep _ _ _ _ (by simp)]; exact e1
    have e3 : F3 ("webpage" :: x :: r) = none := by
      rw [hF3]
      show cmdFS (Cmd.copyChildren ["doc"] ["webpage"]) (c + 2) F2
        (["webpage"] ++ x :: r) = none
      simp only [cmdFS, childOf_append]
      simp only [List.cons_append, List.nil_append]
      rw [kF2doc (x :: r), hdoc]
      simpa using e2
    have e4 : F4 ("webpage" :: x :: r) = none := by
      by_cases hxa : x = "api"
      · subst hxa
        rw [hF4]
        show cmdFS (Cmd.copyTree ["html", "api"] ["webpage", "api"]) (c + 3)
          F3 (["webpage", "api"] ++ r) = none
        rw [copyTree_at]
        simp only [List.cons_append, List.nil_append]
        rw [kF3html ("api" :: r)]
        have hapi2 := hapi rfl
        simp only [List.cons_append, List.nil_append] at hapi2
        rw [hapi2]
        simpa using e3
      · have hbx : ("api" == x) = false :=
          beq_eq_false_iff_ne.mpr (fun h => hxa h.symm)
        rw [hF4, copyTree_keep _ _ _ _ _
          (by simp [List.isPrefixOf_cons₂, hbx])]
        exact e3
    have e5 : F5 ("webpage" :: x :: r) = none := by
      by_cases hxe : x = "examples"
      · subst hxe
        rw [hF5]
        show cmdFS (Cmd.copyTree ["html", "examples"] ["webpage", "examples"])
          (c + 4) F4 (["webpage", "examples"] ++ r) = none
        rw [copyTree_at]
        simp only [List.cons_append, List.nil_append]
        rw [kF4html ("examples" :: r)]
        have hex2 := hex rfl
        simp only [List.cons_append, List.nil_append] at hex2
        rw [hex2]
        simpa using e4
      · have hbx : ("examples" == x) = false :=
          beq_eq_false_iff_ne.mpr (fun h => hxe h.symm)
        rw [hF5, copyTree_keep _ _ _ _ _
          (by simp [List.isPrefixOf_cons₂, hbx])]
        exact e4
    have e6 : F6 ("webpage" :: x :: r) = none := by
      by_cases hxd : x = "doctest"
      · subst hxd
        rcases r with _ | ⟨y, r2⟩
        · rw [hF6, copyChildren_keep _ _ _ _ _
            (by simp [childOf, List.isPrefixOf_cons₂])]
          exact e5
        · rw [hF6]
          show cmdFS (Cmd.copyChildren ["html", "doctest"]
            ["webpage", "doctest"]) (c + 5) F5
            (["webpage", "doctest"] ++ y :: r2) = none
          simp only [cmdFS, childOf_append]
          simp only [List.cons_append, List.nil_append]
          rw [kF5html ("doctest" :: y :: r2)]
          have hdt2 := hdt rfl
          simp only [List.cons_append, List.nil_append] at hdt2
          rw [hdt2]
          simpa using e5
      · have hbx : ("doctest" == x) = false :=
          beq_eq_false_iff_ne.mpr (fun h => hxd h.symm)
        rw [hF6, copyChildren_keep _ _ _ _ _
          (by simp [childOf, List.isPrefixOf_cons₂, hbx])]
        exact e5
    have e7 : F7 ("webpage" :: x :: r) = none := by
      by_cases hxp : x = "epydoc.pdf"
      · subst hxp
        rcases r with _ | ⟨y, r2⟩
        · rw [hF7]
          have hsrc : (F6 ["latex", "api", "api.pdf"]).isSome = false := by
            rw [kF6latex ["api", "api.pdf"]]
            exact hpdf rfl rfl
          simp only [cmdFS, hsrc]
          simpa using e6
        · rw [hF7, copyFile_keep _ _ _ _ _ (by simp)]
          exact e6
      · rw [hF7, copyFile_keep _ _ _ _ _
          (by intro h; injection h with h1 h2; injection h2 with h3 _;
              exact hxp h3)]
        exact e6
    rw [hF8, touch_keep _ _ _ _ (by simp)]
    exact e7

/-- Witness for C6, on a concrete filesystem with one file per input
tree and one stale entry under webpage. -/
theorem C6_webpage_rebuild_witness :
    ((exFS6 (["html", "api"] ++ ["index.html"])).isSome = true
      ∧ (webpageRun okAll sampleDocs exFS6 0
          (["webpage", "api"] ++ ["index.html"])).isSome = true)
    ∧ webpageRun okAll sampleDocs exFS6 0 [".webpage.up2date"] = some (0 + 7)
    ∧ webpageRun okAll sampleDocs exFS6 0 ("html" :: ["api", "index.html"])
        = exFS6 ("html" :: ["api", "index.html"])
    ∧ ((exFS6 ("doc" :: "stale.html" :: [])).isSome = false
      ∧ webpageRun okAll sampleDocs exFS6 0 ("webpage" :: "stale.html" :: [])
          = none) :=
  ⟨⟨by decide,
    (C6_webpage_rebuild okAll sampleDocs exFS6 0).2.2.2.1 ["index.html"]
      (by decide)⟩,
   (C6_webpage_rebuild okAll sampleDocs exFS6 0).2.2.1,
   ((C6_webpage_rebuild okAll sampleDocs exFS6 0).2.1 ["api", "index.html"]).1,
   ⟨by decide,
    (C6_webpage_rebuild okAll sampleDocs exFS6 0).2.2.2.2.2.2.2.2
      "stale.html" [] (by decide) (by decide) (by decide) (by decide)
      (by decide)⟩⟩

end Epydoc
